import Mathlib

/-!
Verification development for the Markdown-to-slide-deck pipeline
(`backend/app/services` of the doc_gen repository).

Python strings are modelled as `List Char` (`PyStr`); Python `dict` as an
association list with overwrite-in-place insertion; Python exceptions as
`Option`.  Regular-expression operations from the source are modelled with
a small backtracking matcher whose alternative order reproduces the
leftmost / greedy / lazy priorities of Python's `re` engine for the
patterns actually used by the source.
-/

abbrev PyStr := List Char

/-- Python `str.strip()` (whitespace on both ends). -/
def pyStrip (s : PyStr) : PyStr :=
  ((s.dropWhile Char.isWhitespace).reverse.dropWhile Char.isWhitespace).reverse

/-- Python `str.lower()` (ASCII case folding; the source only lowers
layout names whose cased characters are ASCII). -/
def pyLower (s : PyStr) : PyStr := s.map Char.toLower

/-- Python `str.split(sep)` for a single-character separator: empty pieces
are kept (`"|a|".split("|") == ["", "a", ""]`). -/
def pySplitCharAux (sep : Char) : PyStr → PyStr → List PyStr
  | [], acc => [acc.reverse]
  | c :: cs, acc =>
    if c = sep then acc.reverse :: pySplitCharAux sep cs []
    else pySplitCharAux sep cs (c :: acc)

def pySplitChar (sep : Char) (s : PyStr) : List PyStr := pySplitCharAux sep s []

/-- Python `needle in haystack` for strings (substring containment). -/
def pyIn (needle : PyStr) : PyStr → Bool
  | [] => needle.isEmpty
  | c :: cs => needle.isPrefixOf (c :: cs) || pyIn needle cs

/-- Python `str.split()` with no argument: split on whitespace runs,
dropping empty pieces. -/
def pySplitWsAux : PyStr → PyStr → List PyStr
  | [], acc => if acc.isEmpty then [] else [acc.reverse]
  | c :: cs, acc =>
    if c.isWhitespace then
      if acc.isEmpty then pySplitWsAux cs [] else acc.reverse :: pySplitWsAux cs []
    else pySplitWsAux cs (c :: acc)

def pySplitWs (s : PyStr) : List PyStr := pySplitWsAux s []

/-- Python `str.startswith`. -/
def pyStartsWith (prefixStr s : PyStr) : Bool := prefixStr.isPrefixOf s

/-- Python `sep.join(pieces)`. -/
def pyJoin (sep : PyStr) : List PyStr → PyStr
  | [] => []
  | [x] => x
  | x :: y :: rest => x ++ sep ++ pyJoin sep (y :: rest)

/-- Python `str.rstrip()`. -/
def pyRStrip (s : PyStr) : PyStr := (s.reverse.dropWhile Char.isWhitespace).reverse

/-- Python `str.find(sub, start)`: index of the leftmost occurrence of
`sub` at an index `≥ start`, or `-1`-as-`none`. -/
def pyFindFromAux (sub : PyStr) : PyStr → Nat → Option Nat
  | [], i => if sub.isEmpty then some i else none
  | c :: cs, i =>
    if sub.isPrefixOf (c :: cs) then some i else pyFindFromAux sub cs (i + 1)

def pyFindFrom (sub s : PyStr) (start : Nat) : Option Nat :=
  (pyFindFromAux sub (s.drop start) start)

/-- Python dict insertion `d[k] = v`: overwrite in place if the key is
present, else append. -/
def dictInsert {α : Type} (k : PyStr) (v : α) : List (PyStr × α) → List (PyStr × α)
  | [] => [(k, v)]
  | (k0, v0) :: rest =>
    if k0 = k then (k0, v) :: rest else (k0, v0) :: dictInsert k v rest

/-- Python dict lookup `d.get(k)` over an association list whose keys are
unique (as maintained by `dictInsert`). -/
def dictGet {α : Type} (d : List (PyStr × α)) (k : PyStr) : Option α :=
  (d.find? (fun p => p.1 = k)).map (·.2)

/- ### Backtracking regular-expression engine

A matcher maps an input suffix to the list of possible outcomes
`(consumed, captured groups, remaining input)` in the priority order of a
backtracking engine (first element = the match Python's `re` would pick
when the pattern is anchored at this position). -/

abbrev RxRes := List (PyStr × List PyStr × PyStr)

abbrev Rx := PyStr → RxRes

/-- Empty pattern. -/
def rxEps : Rx := fun s => [([], [], s)]

/-- Single-character class. -/
def rxCls (p : Char → Bool) : Rx := fun s =>
  match s with
  | c :: cs => if p c then [([c], [], cs)] else []
  | [] => []

/-- Literal string. -/
def rxLit (w : PyStr) : Rx := fun s =>
  if w.isPrefixOf s then [(w, [], s.drop w.length)] else []

/-- Sequencing; group lists concatenate in order. -/
def rxSeq (a b : Rx) : Rx := fun s =>
  (a s).flatMap (fun x =>
    (b x.2.2).map (fun y => (x.1 ++ y.1, x.2.1 ++ y.2.1, y.2.2)))

/-- Prioritised alternation (left branch preferred, as in `re`). -/
def rxAlt (a b : Rx) : Rx := fun s => a s ++ b s

/-- Capturing group: records its consumed text. -/
def rxGrp (a : Rx) : Rx := fun s =>
  (a s).map (fun x => (x.1, x.2.1 ++ [x.1], x.2.2))

/-- Greedy Kleene star (more repetitions preferred), with fuel; the fuel
passed by `rxStar` bounds the repetition count by the input length, which
is enough because every starred sub-pattern in the source consumes at
least one character per repetition. -/
def rxStarF (a : Rx) : Nat → Rx
  | 0 => rxEps
  | n + 1 => rxAlt (rxSeq a (rxStarF a n)) rxEps

def rxStar (a : Rx) : Rx := fun s => rxStarF a (s.length + 1) s

/-- Lazy Kleene star (fewer repetitions preferred), used for `(.*?)`. -/
def rxStarLF (a : Rx) : Nat → Rx
  | 0 => rxEps
  | n + 1 => rxAlt rxEps (rxSeq a (rxStarLF a n))

def rxStarL (a : Rx) : Rx := fun s => rxStarLF a (s.length + 1) s

def rxPlus (a : Rx) : Rx := rxSeq a (rxStar a)

def rxOpt (a : Rx) : Rx := rxAlt a rxEps

/-- Zero-width end-of-line assertion (`$` in MULTILINE mode): end of input
or just before a newline. -/
def rxEol : Rx := fun s =>
  match s with
  | [] => [([], [], [])]
  | c :: cs => if c = '\n' then [([], [], c :: cs)] else []

/-- Scan an input for successive non-overlapping matches (Python
`re.finditer` / `re.findall` / first element = `re.search`).  When `anch`
is true the pattern is `^`-anchored in MULTILINE mode, so a match may
start only at index 0 or right after a newline.  Returns
`(start index, consumed, groups)` per match. -/
def rxScanGo (r : Rx) (anch : Bool) : Nat → Nat → Bool → PyStr → List (Nat × PyStr × List PyStr)
  | 0, _, _, _ => []
  | fuel + 1, idx, atLS, s =>
    let res := if anch && !atLS then [] else r s
    match res.head? with
    | some m =>
      if m.1.isEmpty then
        match s with
        | [] => [(idx, m.1, m.2.1)]
        | ch :: cs => (idx, m.1, m.2.1) :: rxScanGo r anch fuel (idx + 1) (ch = '\n') cs
      else
        (idx, m.1, m.2.1) ::
          rxScanGo r anch fuel (idx + m.1.length) (m.1.getLast? == some '\n') (s.drop m.1.length)
    | none =>
      match s with
      | [] => []
      | ch :: cs => rxScanGo r anch fuel (idx + 1) (ch = '\n') cs

def rxScan (r : Rx) (anch : Bool) (s : PyStr) : List (Nat × PyStr × List PyStr) :=
  rxScanGo r anch (s.length + 1) 0 true s

/-- Python re.sub with replacement r"\1": replace every non-overlapping match by
its first captured group (the only replacement shape the source uses). -/
def rxSubG1Go (r : Rx) : Nat → PyStr → PyStr
  | 0, s => s
  | fuel + 1, s =>
    match (r s).head? with
    | some m =>
      if m.1.isEmpty then
        match s with
        | [] => []
        | c :: cs => c :: rxSubG1Go r fuel cs
      else
        m.2.1.headD [] ++ rxSubG1Go r fuel (s.drop m.1.length)
    | none =>
      match s with
      | [] => []
      | c :: cs => c :: rxSubG1Go r fuel cs

def rxSubG1 (r : Rx) (s : PyStr) : PyStr := rxSubG1Go r (s.length + 1) s

example : pyIn "ab".data "xaby".data = true := by decide
example : pySplitChar '|' "|a|".data = [[], "a".data, []] := by decide
example : pySplitWs "  a bb ".data = ["a".data, "bb".data] := by decide

/- ### Data model (md_parser.py) -/

/-- Parsed pipe table: headers plus data rows (md_parser.py `_parse_table`
result dict). -/
structure TableData where
  headers : List PyStr
  rows : List (List PyStr)
deriving DecidableEq, Repr, Inhabited

/-- One classified content line of a section (dict with "type"/"text"). -/
structure ContentItem where
  type : PyStr
  text : PyStr
deriving DecidableEq, Repr, Inhabited

structure ImageRef where
  alt : PyStr
  src : PyStr
deriving DecidableEq, Repr, Inhabited

structure CodeBlock where
  language : PyStr
  code : PyStr
deriving DecidableEq, Repr, Inhabited

/-- One parsed section/slide (md_parser.py slide dict). -/
structure ParsedSlide where
  title : Option PyStr
  content : List ContentItem
  images : List ImageRef
  code_blocks : List CodeBlock
  tables : List TableData
  layout : PyStr
deriving DecidableEq, Repr, Inhabited

/-- Result of `RegexParser.parse` (md_parser.py result dict). -/
structure ParsedDoc where
  title : Option PyStr
  slides : List ParsedSlide
  metadata : List (PyStr × PyStr)
deriving DecidableEq, Repr, Inhabited

namespace RegexParser

def backquote : Char := Char.ofNat 96

def isNonNl (c : Char) : Bool := c ≠ '\n'

def isWordChar (c : Char) : Bool := c.isAlphanum || c = '_'

/-- Pattern `^#\s+(.+)$` (MULTILINE; the `^` anchor is supplied by
`rxScan`). -/
def title_pattern : Rx :=
  rxSeq (rxCls (· = '#')) (rxSeq (rxPlus (rxCls Char.isWhitespace))
    (rxSeq (rxGrp (rxPlus (rxCls isNonNl))) rxEol))

/-- Pattern `^##\s+(.+)$` (MULTILINE). -/
def h2_pattern : Rx :=
  rxSeq (rxLit "##".data) (rxSeq (rxPlus (rxCls Char.isWhitespace))
    (rxSeq (rxGrp (rxPlus (rxCls isNonNl))) rxEol))

/-- Pattern `!\[([^\]]*)\]\(([^)]+)\)`. -/
def image_pattern : Rx :=
  rxSeq (rxLit "![".data)
    (rxSeq (rxGrp (rxStar (rxCls (· ≠ ']'))))
      (rxSeq (rxLit "](".data)
        (rxSeq (rxGrp (rxPlus (rxCls (· ≠ ')'))))
          (rxLit ")".data))))

/-- Pattern `^[-*]\s+(.+)$` used via `.match` (anchored at line start). -/
def bullet_pattern : Rx :=
  rxSeq (rxCls (fun c => c = '-' || c = '*'))
    (rxSeq (rxPlus (rxCls Char.isWhitespace))
      (rxSeq (rxGrp (rxPlus (rxCls isNonNl))) rxEol))

/-- Pattern `^\d+\.\s+(.+)$` used via `.match`. -/
def numbered_pattern : Rx :=
  rxSeq (rxPlus (rxCls Char.isDigit))
    (rxSeq (rxCls (· = '.'))
      (rxSeq (rxPlus (rxCls Char.isWhitespace))
        (rxSeq (rxGrp (rxPlus (rxCls isNonNl))) rxEol)))

/-- Pattern for fenced code blocks with a lazy body and DOTALL dot. -/
def code_block_pattern : Rx :=
  rxSeq (rxLit [backquote, backquote, backquote])
    (rxSeq (rxGrp (rxStar (rxCls isWordChar)))
      (rxSeq (rxCls (· = '\n'))
        (rxSeq (rxGrp (rxStarL (rxCls (fun _ => true))))
          (rxLit [backquote, backquote, backquote]))))

/-- md_parser.py `RegexParser._clean_cell_text`: strip bold, italic and
inline-code markers, then strip whitespace. -/
def _clean_cell_text (text : PyStr) : PyStr :=
  let bold := rxSeq (rxLit "**".data)
    (rxSeq (rxGrp (rxPlus (rxCls (· ≠ '*')))) (rxLit "**".data))
  let italic := rxSeq (rxCls (· = '*'))
    (rxSeq (rxGrp (rxPlus (rxCls (· ≠ '*')))) (rxCls (· = '*')))
  let code := rxSeq (rxCls (· = backquote))
    (rxSeq (rxGrp (rxPlus (rxCls (· ≠ backquote)))) (rxCls (· = backquote)))
  pyStrip (rxSubG1 code (rxSubG1 italic (rxSubG1 bold text)))

/-- Separator-row test from md_parser.py `_parse_table`: a cell whose text
becomes empty after deleting every dash and colon and stripping
whitespace. -/
def isSeparatorCell (c : PyStr) : Bool :=
  (pyStrip (c.filter (fun ch => ch ≠ '-' && ch ≠ ':'))).isEmpty

/-- Nonempty stripped cells of one table line. -/
def rowCells (line : PyStr) : List PyStr :=
  ((pySplitChar '|' line).map pyStrip).filter (fun c => !c.isEmpty)

/-- One iteration of the row loop in `_parse_table` over the enumerated
line list, accumulating (headers, rows). -/
def parseTableStep (acc : List PyStr × List (List PyStr)) (il : Nat × PyStr) :
    List PyStr × List (List PyStr) :=
  let cells := rowCells il.2
  if !cells.isEmpty && cells.all isSeparatorCell then acc
  else if il.1 = 0 then (cells.map _clean_cell_text, acc.2)
  else if !cells.isEmpty then (acc.1, acc.2 ++ [cells.map _clean_cell_text])
  else acc

/-- md_parser.py `RegexParser._parse_table`: split each line on pipes,
keep nonempty stripped cells, skip separator rows, first non-separator
line is the header row, every later non-separator line with at least one
cell becomes a data row (no cell-count check). -/
def _parse_table (table_lines : List PyStr) : Option TableData :=
  if table_lines.length < 2 then none
  else
    let hr := table_lines.enum.foldl parseTableStep ([], [])
    if hr.1.isEmpty then none
    else some { headers := hr.1, rows := hr.2 }

/-- md_parser.py `RegexParser.extract_metadata`: leading front-matter
block delimited by a pair of three-dash markers. -/
def extract_metadata (md_content : PyStr) : List (PyStr × PyStr) :=
  if pyStartsWith "---".data md_content then
    match pyFindFrom "---".data md_content 3 with
    | some e =>
      if 0 < e then
        let frontmatter := pyStrip ((md_content.drop 3).take (e - 3))
        (pySplitChar '\n' frontmatter).foldl
          (fun md line =>
            if line.contains ':' then
              let parts := pySplitCharAux ':' line []
              match parts with
              | k :: rest => dictInsert (pyStrip k) (pyStrip (pyJoin ":".data rest)) md
              | [] => md
            else md)
          []
      else []
    | none => []
  else []

/-- md_parser.py `RegexParser._split_by_h2`. -/
def _split_by_h2 (content : PyStr) : List PyStr :=
  let starts := (rxScan h2_pattern true content).map (·.1)
  match starts with
  | [] => if (pyStrip content).isEmpty then [] else [content]
  | _ =>
    let bounds := starts.zip (starts.tail ++ [content.length])
    (bounds.map (fun se => pyStrip ((content.drop se.1).take (se.2 - se.1)))).filter
      (fun sec => !sec.isEmpty)

/-- Internal state of the section-scanning loop of `_parse_section`. -/
structure SecState where
  content : List ContentItem
  images : List ImageRef
  tables : List TableData
  buf : List PyStr
  in_table : Bool
deriving Repr

def flushTable (st : SecState) : SecState :=
  match _parse_table st.buf with
  | some td => { st with tables := st.tables ++ [td], buf := [], in_table := false }
  | none => { st with buf := [], in_table := false }

/-- One iteration of the line loop in md_parser.py `_parse_section`. -/
def sectionStep (st : SecState) (rawLine : PyStr) : SecState :=
  let line := pyStrip rawLine
  if line.isEmpty then
    if st.in_table && !st.buf.isEmpty then flushTable st else st
  else if pyStartsWith "|".data line && line.getLast? == some '|' then
    { st with buf := st.buf ++ [line], in_table := true }
  else
    let st := if st.in_table && !st.buf.isEmpty then flushTable st else st
    match (rxScan image_pattern false line).head? with
    | some m =>
      { st with images := st.images ++ [{ alt := m.2.2.headD [], src := (m.2.2.drop 1).headD [] }] }
    | none =>
      match (bullet_pattern line).head? with
      | some m => { st with content := st.content ++ [{ type := "bullet".data, text := m.2.1.headD [] }] }
      | none =>
        match (numbered_pattern line).head? with
        | some m => { st with content := st.content ++ [{ type := "numbered".data, text := m.2.1.headD [] }] }
        | none =>
          if pyStartsWith "### ".data line then
            { st with content := st.content ++ [{ type := "subheading".data, text := line.drop 4 }] }
          else if pyStartsWith "---".data line then st
          else { st with content := st.content ++ [{ type := "text".data, text := line }] }

/-- md_parser.py `RegexParser._parse_section`. -/
def _parse_section (sec : PyStr) : Option ParsedSlide :=
  let lines := pySplitChar '\n' sec
  let titleAndLines : Option PyStr × List PyStr :=
    match lines with
    | l0 :: rest =>
      if pyStartsWith "## ".data l0 then (some (pyStrip (l0.drop 3)), rest)
      else (none, lines)
    | [] => (none, lines)
  let st0 : SecState := { content := [], images := [], tables := [], buf := [], in_table := false }
  let st := titleAndLines.2.foldl sectionStep st0
  let st := if !st.buf.isEmpty then flushTable st else st
  let code_blocks := (rxScan code_block_pattern false sec).map
    (fun m =>
      let lang := m.2.2.headD []
      { language := if lang.isEmpty then "text".data else lang,
        code := pyStrip ((m.2.2.drop 1).headD []) : CodeBlock })
  let layout : PyStr :=
    if !st.images.isEmpty && st.content.isEmpty then "image_only".data
    else if !st.images.isEmpty then "image_content".data
    else if !code_blocks.isEmpty then "code".data
    else if !st.tables.isEmpty then "table".data
    else "title_content".data
  let slide : ParsedSlide :=
    { title := titleAndLines.1, content := st.content, images := st.images,
      code_blocks := code_blocks, tables := st.tables, layout := layout }
  let titleTruthy := match slide.title with
    | some t => !t.isEmpty
    | none => false
  if titleTruthy || !slide.content.isEmpty || !slide.tables.isEmpty then some slide
  else none

/-- md_parser.py `RegexParser.parse`. -/
def parse (md_content : PyStr) : ParsedDoc :=
  let title :=
    match (rxScan title_pattern true md_content).head? with
    | some m => some (pyStrip (m.2.2.headD []))
    | none => none
  { title := title,
    slides := (_split_by_h2 md_content).filterMap _parse_section,
    metadata := [] }

end RegexParser

example :
    RegexParser._parse_table ["| A | B |".data, "|---|---|".data, "| x | y | z |".data] =
      some { headers := ["A".data, "B".data], rows := [["x".data, "y".data, "z".data]] } := by
  decide

/- ### Content summarizer (content_summarizer.py) -/

structure Metric where
  label : PyStr
  value : PyStr
deriving DecidableEq, Repr, Inhabited

/-- content_summarizer.py `SlideContent` dataclass. -/
structure SlideContent where
  title : PyStr
  subtitle : Option PyStr := none
  bullets : List PyStr := []
  key_metrics : List Metric := []
  table_data : Option TableData := none
  layout_hint : PyStr := "bullet".data
  importance : Nat := 1
deriving DecidableEq, Repr, Inhabited

/-- content_summarizer.py `PresentationContent` dataclass.  The `title`
field is annotated `str` in the source but at runtime receives the
parser's value, which can be Python `None`; it is therefore modelled as
`Option PyStr`. -/
structure PresentationContent where
  title : Option PyStr
  subtitle : Option PyStr := none
  slides : List SlideContent := []
  metadata : List (PyStr × PyStr) := []
deriving DecidableEq, Repr, Inhabited

/-- Mutable instance state of the `ContentSummarizer` class: the only
field the class ever assigns is `self.parsed_content` (never read). -/
structure ContentSummarizer where
  parsed_content : Option ParsedDoc := none
deriving DecidableEq, Repr, Inhabited

namespace ContentSummarizer

def MAX_BULLETS_PER_SLIDE : Nat := 5

def MAX_BULLET_LENGTH : Nat := 60

def MAX_TABLE_ROWS : Nat := 6

def MAX_SLIDES : Nat := 15

def IMPORTANT_KEYWORDS : List PyStr :=
  ["목표".data, "목적".data, "전략".data, "핵심".data, "주요".data, "중요".data, "필수".data,
   "일정".data, "마일스톤".data, "예산".data, "비용".data, "금액".data,
   "위험".data, "리스크".data, "이슈".data, "문제".data,
   "성과".data, "효과".data, "기대".data, "KPI".data,
   "조직".data, "인력".data, "담당".data, "PM".data, "PL".data]

def SKIP_SECTIONS : List PyStr :=
  ["부록".data, "문서 개정 이력".data, "참고".data, "별첨".data]

def rxBold : Rx :=
  rxSeq (rxLit "**".data)
    (rxSeq (rxGrp (rxPlus (rxCls (· ≠ '*')))) (rxLit "**".data))

def rxItalic : Rx :=
  rxSeq (rxCls (· = '*'))
    (rxSeq (rxGrp (rxPlus (rxCls (· ≠ '*')))) (rxCls (· = '*')))

def rxCode : Rx :=
  rxSeq (rxCls (· = RegexParser.backquote))
    (rxSeq (rxGrp (rxPlus (rxCls (· ≠ RegexParser.backquote))))
      (rxCls (· = RegexParser.backquote)))

/-- content_summarizer.py `_summarize_bullet`. -/
def _summarize_bullet (text : PyStr) : Option PyStr :=
  if text.isEmpty then none
  else
    let text := rxSubG1 rxCode (rxSubG1 rxItalic (rxSubG1 rxBold text))
    if text.length > MAX_BULLET_LENGTH then
      if text.contains ':' then
        let p0 := (pySplitCharAux ':' text []).headD []
        if p0.length ≤ MAX_BULLET_LENGTH then some (pyStrip p0)
        else some (text.take (MAX_BULLET_LENGTH - 3) ++ "...".data)
      else some (text.take (MAX_BULLET_LENGTH - 3) ++ "...".data)
    else some (pyStrip text)

/-- Either a `{label, value}` metric dict or a plain string, as returned
by `_extract_key_info`. -/
inductive KeyInfo where
  | metric (m : Metric)
  | plain (t : PyStr)
deriving DecidableEq, Repr

def isHangulSyllable (c : Char) : Bool := '가' ≤ c && c ≤ '힣'

/-- Pattern for currency amounts with unit suffix. -/
def money_pattern : Rx :=
  rxSeq (rxPlus (rxCls Char.isDigit))
    (rxSeq (rxStar (rxSeq (rxCls (· = ','))
        (rxSeq (rxCls Char.isDigit) (rxSeq (rxCls Char.isDigit) (rxCls Char.isDigit)))))
      (rxSeq (rxOpt (rxSeq (rxCls (· = '.')) (rxPlus (rxCls Char.isDigit))))
        (rxSeq (rxStar (rxCls Char.isWhitespace))
          (rxAlt (rxLit "억".data)
            (rxAlt (rxLit "만".data) (rxAlt (rxLit "원".data) (rxLit "백만".data)))))))

/-- Pattern for a Hangul label that ends in a budget-like suffix. -/
def label_pattern : Rx :=
  rxSeq (rxPlus (rxCls isHangulSyllable))
    (rxAlt (rxLit "금액".data)
      (rxAlt (rxLit "비용".data) (rxAlt (rxLit "예산".data) (rxLit "계약".data))))

def period_pattern : Rx :=
  rxSeq (rxPlus (rxCls Char.isDigit))
    (rxSeq (rxStar (rxCls Char.isWhitespace))
      (rxAlt (rxLit "개월".data) (rxAlt (rxLit "주".data) (rxLit "일".data))))

def people_pattern : Rx :=
  rxSeq (rxPlus (rxCls Char.isDigit))
    (rxSeq (rxStar (rxCls Char.isWhitespace))
      (rxAlt (rxLit "명".data) (rxLit "인".data)))

/-- Tail of `_extract_key_info` after the money check: duration, then
headcount, then short plain text. -/
def keyInfoRest (text : PyStr) : Option KeyInfo :=
  let periodHit :=
    match (rxScan period_pattern false text).head? with
    | some m =>
      if ["기간".data, "일정".data, "계약".data].any (fun kw => pyIn kw text) then
        some (KeyInfo.metric { label := "프로젝트 기간".data, value := m.2.1 })
      else none
    | none => none
  match periodHit with
  | some k => some k
  | none =>
    let peopleHit :=
      match (rxScan people_pattern false text).head? with
      | some m =>
        if ["인력".data, "인원".data, "팀".data].any (fun kw => pyIn kw text) then
          some (KeyInfo.metric { label := "투입 인력".data, value := m.2.1 })
        else none
      | none => none
    match peopleHit with
    | some k => some k
    | none =>
      if text.length ≤ MAX_BULLET_LENGTH then some (KeyInfo.plain (pyStrip text))
      else none

/-- content_summarizer.py `_extract_key_info`. -/
def _extract_key_info (text : PyStr) : Option KeyInfo :=
  if text.isEmpty then none
  else
    match (rxScan money_pattern false text).head? with
    | some m =>
      match (rxScan label_pattern false text).head? with
      | some lm => some (KeyInfo.metric { label := lm.2.1, value := m.2.1 })
      | none => keyInfoRest text
    | none => keyInfoRest text

/-- One iteration of the bullets/metrics classification loop in
`_summarize_slide` (Python truthiness: an empty summarized string or an
empty extracted string is skipped). -/
def classifyStep (bm : List PyStr × List Metric) (item : ContentItem) : List PyStr × List Metric :=
  if item.type = "bullet".data || item.type = "numbered".data then
    match _summarize_bullet item.text with
    | some s => if !s.isEmpty then (bm.1 ++ [s], bm.2) else bm
    | none => bm
  else if item.type = "text".data then
    match _extract_key_info item.text with
    | some (KeyInfo.metric m) => (bm.1, bm.2 ++ [m])
    | some (KeyInfo.plain t) => if !t.isEmpty then (bm.1 ++ [t], bm.2) else bm
    | none => bm
  else bm

/-- One iteration of the legacy pipe-extraction loop of
`_extract_table_from_content`; unlike the parser, this path does check
the cell count. -/
def extractTableStep (acc : List PyStr × List (List PyStr)) (it : Nat × PyStr) :
    List PyStr × List (List PyStr) :=
  let cells := ((pySplitChar '|' it.2).map pyStrip).filter (fun c => !c.isEmpty)
  if it.1 = 0 then (cells, acc.2)
  else if cells.length = acc.1.length then (acc.1, acc.2 ++ [cells])
  else acc

/-- Candidate pipe-pattern lines of the legacy extraction. -/
def tableTexts (content_items : List ContentItem) : List PyStr :=
  (content_items.map (·.text)).filter (fun t => pyIn "|".data t && !pyIn "---".data t)

/-- content_summarizer.py `_extract_table_from_content` (legacy pipe
pattern extraction). -/
def _extract_table_from_content (content_items : List ContentItem) : Option TableData :=
  if (tableTexts content_items).isEmpty then none
  else
    let hr := (tableTexts content_items).enum.foldl extractTableStep ([], [])
    if hr.1.isEmpty || hr.2.isEmpty then none
    else some { headers := hr.1, rows := hr.2.take MAX_TABLE_ROWS }

def very_important : List PyStr :=
  ["개요".data, "목표".data, "전략".data, "일정".data, "조직".data, "위험".data]

/-- content_summarizer.py `_calculate_importance` (the `bullets` argument
is unused by the source as well). -/
def _calculate_importance (title : PyStr) (bullets : List PyStr) : Nat :=
  let score := if IMPORTANT_KEYWORDS.any (fun k => pyIn k title) then 2 else 1
  if very_important.any (fun k => pyIn k title) then 3 else score

/-- Chunking of the bullet list in steps of `MAX_BULLETS_PER_SLIDE`
(Python `range(0, len(bullets), 5)` slicing), fuelled for structural
recursion; the caller passes the list length as fuel. -/
def chunkBullets : Nat → List PyStr → List (List PyStr)
  | _, [] => []
  | 0, _ :: _ => []
  | fuel + 1, x :: xs =>
    (x :: xs).take MAX_BULLETS_PER_SLIDE :: chunkBullets fuel ((x :: xs).drop MAX_BULLETS_PER_SLIDE)

/-- content_summarizer.py `_summarize_slide`. -/
def _summarize_slide (slide_data : ParsedSlide) : List SlideContent :=
  let title := slide_data.title.getD []
  if SKIP_SECTIONS.any (fun skip => pyIn skip title) then []
  else
    let content_items := slide_data.content
    let parsed_tables := slide_data.tables
    let bm := content_items.foldl classifyStep ([], [])
    let bullets := bm.1
    let metrics := bm.2
    let table_data : Option TableData :=
      if !parsed_tables.isEmpty then
        let td := parsed_tables.headD default
        if !td.rows.isEmpty then
          some { headers := td.headers, rows := td.rows.take MAX_TABLE_ROWS }
        else some td
      else _extract_table_from_content content_items
    let importance := _calculate_importance title bullets
    match table_data with
    | some td =>
      { title := title, table_data := some td, layout_hint := "table".data,
        importance := importance : SlideContent } ::
        (if !bullets.isEmpty then
          [{ title := title ++ " - 주요 내용".data,
             bullets := bullets.take MAX_BULLETS_PER_SLIDE,
             layout_hint := "bullet".data, importance := importance }]
        else [])
    | none =>
      if !metrics.isEmpty then
        [{ title := title, key_metrics := metrics.take 4,
           bullets := if !bullets.isEmpty then bullets.take 3 else [],
           layout_hint := "metrics".data, importance := importance }]
      else if !bullets.isEmpty then
        (chunkBullets bullets.length bullets).enum.map (fun ic =>
          { title := title ++
              (if bullets.length > MAX_BULLETS_PER_SLIDE then
                " (".data ++ (Nat.repr (ic.1 + 1)).data ++ ")".data
              else []),
            bullets := ic.2, layout_hint := "bullet".data, importance := importance })
      else
        [{ title := title, layout_hint := "title_only".data, importance := importance }]

/-- Stable insertion of a slide into a list sorted by descending
importance: placed after every element of greater-or-equal importance. -/
def insertByImp (x : SlideContent) : List SlideContent → List SlideContent
  | [] => [x]
  | y :: ys => if x.importance > y.importance then x :: y :: ys else y :: insertByImp x ys

/-- Stable sort by descending importance; extensionally equal to Python's
stable `sorted(slides, key=lambda s: s.importance, reverse=True)`. -/
def sortByImpDesc (l : List SlideContent) : List SlideContent :=
  l.foldl (fun acc x => insertByImp x acc) []

/-- content_summarizer.py `_prioritize_slides`. -/
def _prioritize_slides (slides : List SlideContent) : List SlideContent :=
  if slides.length ≤ MAX_SLIDES then slides
  else (sortByImpDesc slides).take MAX_SLIDES

/-- content_summarizer.py `ContentSummarizer.summarize`.  Mirrors the
instance method: the returned first component is the updated object state
(`self.parsed_content` assigned), the second the produced presentation.
The Python source reads `parsed_data.get("title", "프레젠테이션")`, but the
parser strategies always store a `"title"` key (possibly `None`), so the
stored value is what propagates; the fallback string is dead. -/
def summarize (self : ContentSummarizer) (parsed_data : ParsedDoc) :
    ContentSummarizer × PresentationContent :=
  let newSelf : ContentSummarizer := { parsed_content := some parsed_data }
  let subtitleAfterAuthor : Option PyStr :=
    match dictGet parsed_data.metadata "author".data with
    | some a => some ("작성자: ".data ++ a)
    | none => none
  let subtitle : Option PyStr :=
    match dictGet parsed_data.metadata "date".data with
    | some d => some d
    | none => subtitleAfterAuthor
  let slides := parsed_data.slides.flatMap _summarize_slide
  (newSelf,
   { title := parsed_data.title, subtitle := subtitle,
     slides := _prioritize_slides slides, metadata := parsed_data.metadata })

end ContentSummarizer

/- ### Themed deck renderer text fitting (ppt_designer.py) -/

namespace PPTDesigner

/-- Word-packing loop of ppt_designer.py `_limit_text_lines`: returns the
`lines` list and the pending `current_line` at loop exit (the loop breaks
as soon as the flushed line list reaches `max_lines`). -/
def packWords (chars_per_line max_lines : Nat) :
    List PyStr → List PyStr → PyStr → List PyStr × PyStr
  | [], lines, current => (lines, current)
  | w :: ws, lines, current =>
    if current.length + w.length + 1 ≤ chars_per_line then
      packWords chars_per_line max_lines ws lines
        (if current.isEmpty then w else current ++ " ".data ++ w)
    else
      let lines2 := if current.isEmpty then lines else lines ++ [current]
      if lines2.length ≥ max_lines then (lines2, w)
      else packWords chars_per_line max_lines ws lines2 w

/-- Value of the `lines` variable right before the join in
`_limit_text_lines`: the packed lines, with the pending partial line
appended only while the line count is still below the cap. -/
def finalLines (text : PyStr) (chars_per_line max_lines : Nat) : List PyStr :=
  let lc := packWords chars_per_line max_lines (pySplitWs text) [] []
  if !lc.2.isEmpty && lc.1.length < max_lines then lc.1 ++ [lc.2] else lc.1

/-- ppt_designer.py `PPTDesigner._limit_text_lines`. -/
def _limit_text_lines (text : PyStr) (chars_per_line max_lines : Nat) : PyStr :=
  if text.isEmpty then []
  else
    let words := pySplitWs text
    let lines := finalLines text chars_per_line max_lines
    let result := pyJoin "\n".data lines
    if lines.length ≥ max_lines && (pySplitWs (pyJoin " ".data lines)).length < words.length then
      pyRStrip result ++ "...".data
    else result

end PPTDesigner

/- ### Style profile extraction (template_analyzer.py) -/

/-- template_analyzer.py `ColorPalette` dataclass with its defaults. -/
structure ColorPalette where
  primary : PyStr := "#1E3A8A".data
  secondary : PyStr := "#64748B".data
  accent : PyStr := "#3B82F6".data
  background : PyStr := "#FFFFFF".data
  text_dark : PyStr := "#1E293B".data
  text_light : PyStr := "#FFFFFF".data
  additional_colors : List PyStr := []
deriving DecidableEq, Repr, Inhabited

namespace TemplateAnalyzer

def hexDigitVal (c : Char) : Option Nat :=
  let n := c.toNat
  if 48 ≤ n && n ≤ 57 then some (n - 48)
  else if 97 ≤ n && n ≤ 102 then some (n - 87)
  else if 65 ≤ n && n ≤ 70 then some (n - 55)
  else none

/-- Python `int(s, 16)` on the plain-hex-digit inputs the analyzer feeds
it (slices of a collected color string; collected colors have the shape
dash-RRGGBB produced by python-pptx, all hex digits). -/
def pyIntHex (s : PyStr) : Option Nat :=
  if s.isEmpty then none
  else s.foldl (fun acc c => acc.bind (fun n => (hexDigitVal c).map (fun d => 16 * n + d)))
    (some 0)

/-- template_analyzer.py `_get_color_brightness`, scaled by 1000: the
source computes `(r*299 + g*587 + b*114) / 1000` as a float and compares
it with 85 and 200; on integer inputs those comparisons agree exactly
with comparing this scaled value against 85000 and 200000.  The
`except` fallback 128 scales to 128000. -/
def _get_color_brightness1000 (hex_color : PyStr) : Nat :=
  let h := hex_color.dropWhile (· = '#')
  match pyIntHex (h.take 2), pyIntHex ((h.drop 2).take 2), pyIntHex ((h.drop 4).take 2) with
  | some r, some g, some b => r * 299 + g * 587 + b * 114
  | _, _, _ => 128000

/-- Dark bucket: luminance below 85. -/
def isDark (c : PyStr) : Bool := _get_color_brightness1000 c < 85000

/-- Light bucket: luminance above 200. -/
def isLight (c : PyStr) : Bool := 200000 < _get_color_brightness1000 c

/-- Mid bucket: neither dark nor light. -/
def isMid (c : PyStr) : Bool := !isDark c && !isLight c

/-- One iteration of the classification loop of `_create_color_palette`. -/
def colorStep (dlm : List PyStr × List PyStr × List PyStr) (c : PyStr) :
    List PyStr × List PyStr × List PyStr :=
  let b := _get_color_brightness1000 c
  if b < 85000 then (dlm.1 ++ [c], dlm.2.1, dlm.2.2)
  else if 200000 < b then (dlm.1, dlm.2.1 ++ [c], dlm.2.2)
  else (dlm.1, dlm.2.1, dlm.2.2 ++ [c])

/-- Classification loop of `_create_color_palette`: partition the
collected colors, in order, into (dark, light, mid). -/
def classifyColors (extracted_colors : List PyStr) : List PyStr × List PyStr × List PyStr :=
  extracted_colors.foldl colorStep ([], [], [])

/-- template_analyzer.py `_create_color_palette`, as a function of the
collected color sequence `self.extracted_colors`. -/
def _create_color_palette (extracted_colors : List PyStr) : ColorPalette :=
  if extracted_colors.isEmpty then {}
  else
    let dlm := classifyColors extracted_colors
    let dark_colors := dlm.1
    let light_colors := dlm.2.1
    let mid_colors := dlm.2.2
    let p0 : ColorPalette := {}
    let p1 :=
      if !dark_colors.isEmpty then
        { p0 with
          primary := (dark_colors.headD []),
          text_dark := (dark_colors.headD []),
          secondary := (if dark_colors.length > 1 then (dark_colors.drop 1).headD []
            else p0.secondary) }
      else p0
    let p2 := if !mid_colors.isEmpty then { p1 with accent := mid_colors.headD [] } else p1
    let p3 :=
      if !light_colors.isEmpty then
        { p2 with background :=
            if light_colors.headD [] ≠ "#FFFFFF".data then light_colors.headD []
            else p2.background }
      else p2
    { p3 with additional_colors := extracted_colors.take 10 }

end TemplateAnalyzer

/- ### Legacy direct renderer layout resolution (ppt_generator.py) -/

/-- ppt_generator.py `LayoutMapping`: only the `alternatives` table is
consulted by `LayoutResolver.get_layout`. -/
structure LayoutMapping where
  alternatives : List (PyStr × List PyStr) :=
    [("title".data, ["Title Slide".data, "제목 슬라이드".data, "표지".data]),
     ("title_content".data, ["Title and Content".data, "제목 및 내용".data, "제목과 내용".data]),
     ("section_header".data, ["Section Header".data, "구역 머리글".data, "섹션 머리글".data]),
     ("two_content".data, ["Two Content".data, "두 개의 콘텐츠".data, "2단 콘텐츠".data]),
     ("comparison".data, ["Comparison".data, "비교".data, "비교형".data]),
     ("title_only".data, ["Title Only".data, "제목만".data, "제목 전용".data]),
     ("blank".data, ["Blank".data, "빈 화면".data, "빈 슬라이드".data]),
     ("content_caption".data, ["Content with Caption".data, "캡션 있는 콘텐츠".data])]
deriving DecidableEq, Repr, Inhabited

namespace LayoutResolver

/-- ppt_generator.py `LayoutResolver._build_cache`: a deck's layouts are
modelled by their name list; the cache maps the stripped, lowered name to
the layout (identified by its index), later layouts overwriting earlier
ones with the same normalized name, exactly as repeated Python dict
assignment does. -/
def _build_cache (layouts : List PyStr) : List (PyStr × Nat) :=
  layouts.enum.foldl (fun cache il => dictInsert (pyLower (pyStrip il.2)) il.1 cache) []

/-- Fixed role-to-index fallback table inside `get_layout`. -/
def fallback_indices : List (PyStr × Nat) :=
  [("title".data, 0), ("title_content".data, 1), ("section_header".data, 2),
   ("two_content".data, 3), ("comparison".data, 4), ("title_only".data, 5),
   ("blank".data, 6), ("content_caption".data, 7)]

/-- ppt_generator.py `LayoutResolver.get_layout`, returning the index of
the layout object the method returns; `none` models an uncaught
`IndexError` (possible only when the deck has no layouts at all, since
the out-of-range fallback access `slide_layouts[0]` sits outside the
`try`). -/
def get_layout (mapping : LayoutMapping) (layouts : List PyStr) (layout_type : PyStr) :
    Option Nat :=
  let cache := _build_cache layouts
  let alternatives := (dictGet mapping.alternatives layout_type).getD []
  match alternatives.findSome? (fun name => dictGet cache (pyLower name)) with
  | some idx => some idx
  | none =>
    let idx := (dictGet fallback_indices layout_type).getD 1
    if idx < layouts.length then some idx
    else if 0 < layouts.length then some 0
    else none

end LayoutResolver

/- ### Concrete inputs used by counterexamples and witnesses -/

/-- Markdown document with a pipe table whose last literal row has three
cells under a two-cell header. -/
def c1md : PyStr :=
  ("# T\n\n## S\n| A | B |\n|---|---|\n| x | y | z |").data

def c1TableLines : List PyStr :=
  ["| A | B |".data, "|---|---|".data, "| x | y | z |".data]

/-- Number of physical newline-separated lines of a string (0 for the
empty string). -/
def numLines (s : PyStr) : Nat := if s.isEmpty then 0 else s.count '\n' + 1

/-- Whether an enumerated table line is kept as a data row by
`_parse_table`: at least one nonempty cell, not a separator row, and not
the first line. -/
def keptRow (il : Nat × PyStr) : Bool :=
  !(RegexParser.rowCells il.2).isEmpty &&
    !(RegexParser.rowCells il.2).all RegexParser.isSeparatorCell && !(il.1 = 0)

/-- A word produced by whitespace splitting: nonempty and free of
whitespace characters. -/
def goodWord (w : PyStr) : Bool := !w.isEmpty && w.all (fun c => !c.isWhitespace)

/- ### Theorems -/

/-- C8: for every parsed slide whose title contains a configured skip
keyword (appendix / revision-history markers), `_summarize_slide`
produces zero `SlideContent` entries, whatever the body holds. -/
theorem skip_section_yields_no_slides (slide_data : ParsedSlide)
    (h : ∃ skip ∈ ContentSummarizer.SKIP_SECTIONS,
      pyIn skip (slide_data.title.getD []) = true) :
    ContentSummarizer._summarize_slide slide_data = [] := by
  have hany : ContentSummarizer.SKIP_SECTIONS.any
      (fun skip => pyIn skip (slide_data.title.getD [])) = true := by
    rcases h with ⟨k, hk, hin⟩
    exact List.any_eq_true.mpr ⟨k, hk, hin⟩
  unfold ContentSummarizer._summarize_slide
  simp only [hany, if_true]

theorem skip_section_yields_no_slides_witness :
    ContentSummarizer._summarize_slide
      { title := some "부록 A".data,
        content := [{ type := "bullet".data, text := "- x".data }],
        images := [], code_blocks := [],
        tables := [{ headers := ["H".data], rows := [["v".data]] }],
        layout := "table".data } = [] :=
  skip_section_yields_no_slides _ ⟨"부록".data, by decide, by decide⟩

/-- C9: when the parsed metadata has an `author` key the presentation
subtitle is the labelled author string, except that a `date` key, when
also present, overrides it with the bare date value. -/
theorem subtitle_author_date (self : ContentSummarizer) (d : ParsedDoc) (a : PyStr)
    (ha : dictGet d.metadata "author".data = some a) :
    (ContentSummarizer.summarize self d).2.subtitle =
      (match dictGet d.metadata "date".data with
       | some dt => some dt
       | none => some ("작성자: ".data ++ a)) := by
  unfold ContentSummarizer.summarize
  cases hd : dictGet d.metadata "date".data <;> simp [ha, hd]

theorem subtitle_author_date_witness :
    (ContentSummarizer.summarize {}
      { title := none, slides := [],
        metadata := [("author".data, "Kim".data), ("date".data, "D1".data)] }).2.subtitle =
      (match dictGet [("author".data, "Kim".data), ("date".data, "D1".data)] "date".data with
       | some dt => some dt
       | none => some ("작성자: ".data ++ "Kim".data)) :=
  subtitle_author_date {} _ "Kim".data (by decide)

/-- C3 (code bug): on a Markdown document with no level-1 heading the
parser stores `None` as the title and `summarize` propagates it: the
`dict.get("title", default)` fallback never fires because the key is
always present, so the produced presentation title is `None` instead of
the intended non-empty default string. -/
theorem summarize_title_none_bug :
    (RegexParser.parse "hello".data).title = none ∧
    (RegexParser.parse "hello".data).slides ≠ [] ∧
    (ContentSummarizer.summarize {} (RegexParser.parse "hello".data)).2.title = none := by
  refine ⟨by decide, by decide, by decide⟩

/-- C6: `summarize` is deterministic and carries no hidden mutable state
across calls: its output does not depend on the summarizer object's prior
state, and re-running it on the state produced by a first run yields the
identical presentation. -/
theorem summarize_deterministic (s1 s2 : ContentSummarizer) (d : ParsedDoc) :
    (ContentSummarizer.summarize s1 d).2 = (ContentSummarizer.summarize s2 d).2 ∧
    (ContentSummarizer.summarize ((ContentSummarizer.summarize s1 d).1) d).2 =
      (ContentSummarizer.summarize s1 d).2 :=
  ⟨rfl, rfl⟩

lemma dictGet_dictInsert {α : Type} (k : PyStr) (v : α) (d : List (PyStr × α)) (k2 : PyStr) :
    dictGet (dictInsert k v d) k2 = if k2 = k then some v else dictGet d k2 := by
  induction d with
  | nil =>
    by_cases h : k2 = k
    · subst h; simp [dictInsert, dictGet, List.find?]
    · have h2 : ¬(k = k2) := fun hc => h hc.symm
      simp [dictInsert, dictGet, List.find?, h, h2]
  | cons p rest ih =>
    obtain ⟨k0, v0⟩ := p
    by_cases h0 : k0 = k
    · subst h0
      by_cases h : k2 = k0
      · subst h; simp [dictInsert, dictGet, List.find?]
      · have h2 : ¬(k0 = k2) := fun hc => h hc.symm
        simp [dictInsert, dictGet, List.find?, h, h2]
    · by_cases h : k2 = k0
      · subst h
        have h2 : ¬(k2 = k) := fun hc => h0 (hc ▸ rfl)
        simp [dictInsert, dictGet, List.find?, h0, h2]
      · have h2 : ¬(k0 = k2) := fun hc => h hc.symm
        simp only [dictInsert, if_neg h0]
        simp only [dictGet, List.find?, decide_eq_false h2] at ih ⊢
        exact ih

lemma build_cache_foldl_none (key : PyStr) :
    ∀ (ls : List PyStr) (n : Nat) (acc : List (PyStr × Nat)),
      dictGet ((List.enumFrom n ls).foldl
        (fun cache il => dictInsert (pyLower (pyStrip il.2)) il.1 cache) acc) key = none ↔
      (dictGet acc key = none ∧ ∀ l ∈ ls, pyLower (pyStrip l) ≠ key) := by
  intro ls
  induction ls with
  | nil => intro n acc; simp [List.enumFrom]
  | cons x xs ih =>
    intro n acc
    simp only [List.enumFrom, List.foldl_cons]
    rw [ih]
    rw [dictGet_dictInsert]
    constructor
    · rintro ⟨hnone, hall⟩
      split at hnone
      · exact absurd hnone (by simp)
      · rename_i hne
        refine ⟨hnone, fun l hl => ?_⟩
        rcases List.mem_cons.mp hl with hl | hl
        · subst hl
          exact fun hc => hne hc.symm
        · exact hall l hl
    · rintro ⟨hnone, hall⟩
      have hx : pyLower (pyStrip x) ≠ key := hall x (by simp)
      refine ⟨?_, fun l hl => hall l (List.mem_cons.mpr (Or.inr hl))⟩
      rw [if_neg (fun hc => hx hc.symm)]
      exact hnone

lemma build_cache_none (layouts : List PyStr) (key : PyStr) :
    dictGet (LayoutResolver._build_cache layouts) key = none ↔
      ∀ l ∈ layouts, pyLower (pyStrip l) ≠ key := by
  unfold LayoutResolver._build_cache
  rw [List.enum]
  rw [build_cache_foldl_none key layouts 0 []]
  simp [dictGet]

/-- C7: for a target deck with at least one layout and a role present in
the fixed role-to-index fallback table, `get_layout` always returns a
layout (never raises); and when no configured alternate name matches any
deck layout name case-insensitively, the returned layout is the one at
the table's index, or the deck's first layout when that index is out of
range. -/
theorem get_layout_total (mapping : LayoutMapping) (layouts : List PyStr) (role : PyStr)
    (h1 : layouts ≠ [])
    (h2 : (dictGet LayoutResolver.fallback_indices role).isSome = true) :
    (∃ i, LayoutResolver.get_layout mapping layouts role = some i) ∧
    ((∀ alt ∈ (dictGet mapping.alternatives role).getD [],
        ∀ l ∈ layouts, pyLower (pyStrip l) ≠ pyLower alt) →
      LayoutResolver.get_layout mapping layouts role =
        some (if (dictGet LayoutResolver.fallback_indices role).getD 1 < layouts.length
          then (dictGet LayoutResolver.fallback_indices role).getD 1 else 0)) := by
  have hlen : 0 < layouts.length := List.length_pos.mpr h1
  unfold LayoutResolver.get_layout
  cases hf : ((dictGet mapping.alternatives role).getD []).findSome?
      (fun name => dictGet (LayoutResolver._build_cache layouts) (pyLower name)) with
  | some i =>
    constructor
    · exact ⟨i, by simp [hf]⟩
    · intro hno
      exfalso
      obtain ⟨alt, halt, hsome⟩ := List.exists_of_findSome?_eq_some hf
      have hnone : dictGet (LayoutResolver._build_cache layouts) (pyLower alt) = none :=
        (build_cache_none layouts (pyLower alt)).mpr (hno alt halt)
      rw [hnone] at hsome
      exact Option.noConfusion hsome
  | none =>
    simp only [hf]
    by_cases hidx : (dictGet LayoutResolver.fallback_indices role).getD 1 < layouts.length
    · refine ⟨⟨(dictGet LayoutResolver.fallback_indices role).getD 1, by simp [hidx]⟩,
        fun _ => by simp [hidx]⟩
    · refine ⟨⟨0, by simp [hidx, hlen]⟩, fun _ => by simp [hidx, hlen]⟩

theorem get_layout_total_witness :
    (∃ i, LayoutResolver.get_layout {} ["한국어 레이아웃".data] "title".data = some i) ∧
    LayoutResolver.get_layout {} ["한국어 레이아웃".data] "title".data = some 0 := by
  have h := get_layout_total {} ["한국어 레이아웃".data] "title".data (by decide) (by decide)
  refine ⟨h.1, ?_⟩
  have h2 := h.2 (by decide)
  simpa using h2

/-- C1 counterexample: parsing `c1md`, whose table has the literal row
with three cells below a two-cell header, yields a `TableData` that keeps
that mismatched row (length 3 against 2 headers) instead of dropping
it. -/
theorem parse_keeps_mismatched_row :
    (RegexParser.parse c1md).slides.map (·.tables) =
      [[{ headers := ["A".data, "B".data], rows := [["x".data, "y".data, "z".data]] }]] := by
  decide

lemma foldl_parseTableStep_rows (ps : List (Nat × PyStr)) :
    ∀ acc : List PyStr × List (List PyStr),
      (ps.foldl RegexParser.parseTableStep acc).2 =
        acc.2 ++ (ps.filter keptRow).map
          (fun il => (RegexParser.rowCells il.2).map RegexParser._clean_cell_text) := by
  induction ps with
  | nil => intro acc; simp
  | cons il rest ih =>
    intro acc
    simp only [List.foldl_cons, List.filter_cons]
    cases hE : (RegexParser.rowCells il.2).isEmpty with
    | true =>
      have hkept : keptRow il = false := by simp [keptRow, hE]
      have hstep : (RegexParser.parseTableStep acc il).2 = acc.2 := by
        unfold RegexParser.parseTableStep
        by_cases h0 : il.1 = 0 <;> simp [hE, h0]
      rw [hkept]
      simp only [Bool.false_eq_true, if_false]
      rw [ih, hstep]
    | false =>
      cases hS : (RegexParser.rowCells il.2).all RegexParser.isSeparatorCell with
      | true =>
        have hkept : keptRow il = false := by simp [keptRow, hS]
        have hstep : RegexParser.parseTableStep acc il = acc := by
          unfold RegexParser.parseTableStep
          simp [hE, hS]
        rw [hkept]
        simp only [Bool.false_eq_true, if_false]
        rw [hstep, ih]
      | false =>
        by_cases h0 : il.1 = 0
        · have hkept : keptRow il = false := by simp [keptRow, h0]
          have hstep : (RegexParser.parseTableStep acc il).2 = acc.2 := by
            unfold RegexParser.parseTableStep
            simp [hE, hS, h0]
          rw [hkept]
          simp only [Bool.false_eq_true, if_false]
          rw [ih, hstep]
        · have hkept : keptRow il = true := by simp [keptRow, hE, hS, h0]
          have hstep : (RegexParser.parseTableStep acc il).2 =
              acc.2 ++ [(RegexParser.rowCells il.2).map RegexParser._clean_cell_text] := by
            unfold RegexParser.parseTableStep
            simp [hE, hS, h0]
          rw [hkept]
          simp only [if_true]
          rw [ih, hstep]
          simp

/-- C1 amended: `_parse_table` applies no cell-count filtering: the rows
of a parsed table are exactly the cleaned nonempty-cell lists of every
non-separator line after the first that has at least one nonempty cell,
whatever their lengths; a literal row whose cell count differs from the
header count is therefore kept, not dropped. -/
theorem parse_table_rows_amended (table_lines : List PyStr) (t : TableData)
    (h : RegexParser._parse_table table_lines = some t) :
    t.rows = (table_lines.enum.filter keptRow).map
      (fun il => (RegexParser.rowCells il.2).map RegexParser._clean_cell_text) := by
  have h2 : (if table_lines.length < 2 then (none : Option TableData)
      else if (table_lines.enum.foldl RegexParser.parseTableStep ([], [])).1.isEmpty = true
        then none
        else some { headers := (table_lines.enum.foldl RegexParser.parseTableStep ([], [])).1,
                    rows := (table_lines.enum.foldl RegexParser.parseTableStep ([], [])).2 }) =
      some t := h
  split at h2
  · exact Option.noConfusion h2
  · split at h2
    · exact Option.noConfusion h2
    · have h3 := congrArg TableData.rows (Option.some.inj h2)
      rw [← h3]
      exact (foldl_parseTableStep_rows table_lines.enum ([], [])).trans (by simp)

theorem parse_table_rows_amended_witness :
    (RegexParser._parse_table c1TableLines).isSome = true ∧
    (match RegexParser._parse_table c1TableLines with
     | some t => t.rows = (c1TableLines.enum.filter keptRow).map
         (fun il => (RegexParser.rowCells il.2).map RegexParser._clean_cell_text)
     | none => False) := by
  refine ⟨by decide, ?_⟩
  cases hp : RegexParser._parse_table c1TableLines with
  | none => exact absurd hp (by decide)
  | some t => exact parse_table_rows_amended c1TableLines t hp

/-- C2 counterexample: with collected colors `#202020` then `#000000`,
both dark and with `#000000` strictly darker, the palette's primary is
the first-seen dark color `#202020`, not the darkest collected color. -/
theorem color_palette_counterexample :
    (TemplateAnalyzer._create_color_palette ["#202020".data, "#000000".data]).primary =
      "#202020".data ∧
    TemplateAnalyzer._get_color_brightness1000 "#000000".data <
      TemplateAnalyzer._get_color_brightness1000 "#202020".data := by
  exact ⟨by decide, by decide⟩

lemma colorStep_foldl (cs : List PyStr) :
    ∀ d l m : List PyStr,
      cs.foldl TemplateAnalyzer.colorStep (d, l, m) =
        (d ++ cs.filter TemplateAnalyzer.isDark, l ++ cs.filter TemplateAnalyzer.isLight,
         m ++ cs.filter TemplateAnalyzer.isMid) := by
  induction cs with
  | nil => intro d l m; simp
  | cons c rest ih =>
    intro d l m
    simp only [List.foldl_cons, List.filter_cons]
    by_cases hb1 : TemplateAnalyzer._get_color_brightness1000 c < 85000
    · have hd : TemplateAnalyzer.isDark c = true := by
        simp [TemplateAnalyzer.isDark, hb1]
      have hl : TemplateAnalyzer.isLight c = false := by
        simp only [TemplateAnalyzer.isLight, decide_eq_false_iff_not]
        omega
      have hm : TemplateAnalyzer.isMid c = false := by
        simp [TemplateAnalyzer.isMid, hd]
      have hstep : TemplateAnalyzer.colorStep (d, l, m) c = (d ++ [c], l, m) := by
        unfold TemplateAnalyzer.colorStep
        simp [hb1]
      rw [hstep, ih]
      simp [hd, hl, hm]
    · by_cases hb2 : 200000 < TemplateAnalyzer._get_color_brightness1000 c
      · have hd : TemplateAnalyzer.isDark c = false := by
          simp [TemplateAnalyzer.isDark, hb1]
        have hl : TemplateAnalyzer.isLight c = true := by
          simp [TemplateAnalyzer.isLight, hb2]
        have hm : TemplateAnalyzer.isMid c = false := by
          simp [TemplateAnalyzer.isMid, hl]
        have hstep : TemplateAnalyzer.colorStep (d, l, m) c = (d, l ++ [c], m) := by
          unfold TemplateAnalyzer.colorStep
          simp [hb1, hb2]
        rw [hstep, ih]
        simp [hd, hl, hm]
      · have hd : TemplateAnalyzer.isDark c = false := by
          simp [TemplateAnalyzer.isDark, hb1]
        have hl : TemplateAnalyzer.isLight c = false := by
          simp [TemplateAnalyzer.isLight, hb2]
        have hm : TemplateAnalyzer.isMid c = true := by
          simp [TemplateAnalyzer.isMid, hd, hl]
        have hstep : TemplateAnalyzer.colorStep (d, l, m) c = (d, l, m ++ [c]) := by
          unfold TemplateAnalyzer.colorStep
          simp [hb1, hb2]
        rw [hstep, ih]
        simp [hd, hl, hm]

lemma classifyColors_eq (colors : List PyStr) :
    TemplateAnalyzer.classifyColors colors =
      (colors.filter TemplateAnalyzer.isDark, colors.filter TemplateAnalyzer.isLight,
       colors.filter TemplateAnalyzer.isMid) := by
  unfold TemplateAnalyzer.classifyColors
  rw [colorStep_foldl]
  simp

/-- C2 amended: the palette assigns the first-seen color of each
luminance bucket (luminance `0.299R+0.587G+0.114B`, dark below 85, light
above 200, mid otherwise), not the extremal one: primary and text-dark
get the first dark color, secondary the second dark color, accent the
first mid color, and background the first light color unless that first
light color is exactly `#FFFFFF`, in which case the default white stays
even when a later non-white light color was collected; defaults fill
every empty bucket, and the first ten collected colors are recorded. -/
theorem create_color_palette_amended (colors : List PyStr) :
    (TemplateAnalyzer._create_color_palette colors).primary =
      ((colors.filter TemplateAnalyzer.isDark).headD "#1E3A8A".data) ∧
    (TemplateAnalyzer._create_color_palette colors).text_dark =
      ((colors.filter TemplateAnalyzer.isDark).headD "#1E293B".data) ∧
    (TemplateAnalyzer._create_color_palette colors).secondary =
      (((colors.filter TemplateAnalyzer.isDark).drop 1).headD "#64748B".data) ∧
    (TemplateAnalyzer._create_color_palette colors).accent =
      ((colors.filter TemplateAnalyzer.isMid).headD "#3B82F6".data) ∧
    (TemplateAnalyzer._create_color_palette colors).background =
      (if (colors.filter TemplateAnalyzer.isLight).headD "#FFFFFF".data = "#FFFFFF".data
        then "#FFFFFF".data
        else (colors.filter TemplateAnalyzer.isLight).headD "#FFFFFF".data) ∧
    (TemplateAnalyzer._create_color_palette colors).additional_colors = colors.take 10 := by
  by_cases hc : colors.isEmpty = true
  · have hnil : colors = [] := by
      cases colors with
      | nil => rfl
      | cons x xs => simp at hc
    subst hnil
    exact ⟨rfl, rfl, rfl, rfl, rfl, rfl⟩
  · unfold TemplateAnalyzer._create_color_palette
    rw [if_neg hc, classifyColors_eq]
    rcases hDark : colors.filter TemplateAnalyzer.isDark with _ | ⟨d0, dtl⟩ <;>
      rcases hLight : colors.filter TemplateAnalyzer.isLight with _ | ⟨l0, ltl⟩ <;>
      rcases hMid : colors.filter TemplateAnalyzer.isMid with _ | ⟨m0, mtl⟩
    all_goals {
      first
      | (rcases dtl with _ | ⟨d1, dtl2⟩ <;>
          by_cases hW : l0 = "#FFFFFF".data <;>
          simp [hW])
      | (rcases dtl with _ | ⟨d1, dtl2⟩ <;> simp)
      | (by_cases hW : l0 = "#FFFFFF".data <;> simp [hW])
      | simp
    }

/-- C10: when a parsed slide carries two or more tables, the summarizer
emits at most one slide holding table data, and that table data is built
from the first parsed table alone (rows capped at `MAX_TABLE_ROWS`);
every later table reaches no `SlideContent`, and the legacy pipe-pattern
extraction from content items is bypassed. -/
theorem first_table_only (slide_data : ParsedSlide) (t0 t1 : TableData) (ts : List TableData)
    (h : slide_data.tables = t0 :: t1 :: ts) :
    (((ContentSummarizer._summarize_slide slide_data).filter
        (fun s => s.table_data.isSome)).length ≤ 1) ∧
    (∀ s ∈ ContentSummarizer._summarize_slide slide_data, ∀ td, s.table_data = some td →
      td = (if t0.rows.isEmpty then t0
            else { headers := t0.headers,
                   rows := t0.rows.take ContentSummarizer.MAX_TABLE_ROWS })) := by
  unfold ContentSummarizer._summarize_slide
  by_cases hskip : (ContentSummarizer.SKIP_SECTIONS.any
      (fun skip => pyIn skip (slide_data.title.getD []))) = true
  · simp [hskip]
  · rw [if_neg hskip]
    by_cases hrows : t0.rows.isEmpty = true <;>
      by_cases hbul :
        ((slide_data.content.foldl ContentSummarizer.classifyStep ([], [])).1).isEmpty = true <;>
      simp [h, hrows, hbul, List.isEmpty_iff]

theorem first_table_only_witness :
    ((ContentSummarizer._summarize_slide
      { title := some "S".data, content := [], images := [], code_blocks := [],
        tables := [{ headers := ["H".data], rows := [["1".data]] },
                   { headers := ["Z".data], rows := [["9".data]] }],
        layout := "table".data }).filter
      (fun s => s.table_data.isSome)).length ≤ 1 :=
  (first_table_only _ _ _ _ rfl).1

lemma mem_of_mem_enumFrom {α : Type} :
    ∀ (l : List α) (n : Nat) (p : Nat × α), p ∈ List.enumFrom n l → p.2 ∈ l := by
  intro l
  induction l with
  | nil => intro n p h; simp [List.enumFrom] at h
  | cons x xs ih =>
    intro n p h
    simp only [List.enumFrom, List.mem_cons] at h
    rcases h with h | h
    · subst h; simp
    · exact List.mem_cons.mpr (Or.inr (ih (n + 1) p h))

lemma chunkBullets_mem_length :
    ∀ (fuel : Nat) (l c : List PyStr), c ∈ ContentSummarizer.chunkBullets fuel l →
      c.length ≤ ContentSummarizer.MAX_BULLETS_PER_SLIDE := by
  intro fuel
  induction fuel with
  | zero =>
    intro l c h
    cases l with
    | nil => simp [ContentSummarizer.chunkBullets] at h
    | cons x xs => simp [ContentSummarizer.chunkBullets] at h
  | succ n ih =>
    intro l c h
    cases l with
    | nil => simp [ContentSummarizer.chunkBullets] at h
    | cons x xs =>
      simp only [ContentSummarizer.chunkBullets, List.mem_cons] at h
      rcases h with h | h
      · subst h
        simpa using List.length_take_le _ _
      · exact ih _ c h

lemma extract_table_rows_le (items : List ContentItem) (td : TableData)
    (h : ContentSummarizer._extract_table_from_content items = some td) :
    td.rows.length ≤ ContentSummarizer.MAX_TABLE_ROWS := by
  have h2 : (if (ContentSummarizer.tableTexts items).isEmpty = true then (none : Option TableData)
      else if (((ContentSummarizer.tableTexts items).enum.foldl
            ContentSummarizer.extractTableStep ([], [])).1.isEmpty ||
          ((ContentSummarizer.tableTexts items).enum.foldl
            ContentSummarizer.extractTableStep ([], [])).2.isEmpty) = true then none
      else some (TableData.mk
        (((ContentSummarizer.tableTexts items).enum.foldl
          ContentSummarizer.extractTableStep ([], [])).1)
        ((((ContentSummarizer.tableTexts items).enum.foldl
          ContentSummarizer.extractTableStep ([], [])).2).take
            ContentSummarizer.MAX_TABLE_ROWS))) = some td := h
  split at h2
  · exact Option.noConfusion h2
  · split at h2
    · exact Option.noConfusion h2
    · have h3 := congrArg TableData.rows (Option.some.inj h2)
      rw [← h3]
      simpa using List.length_take_le _ _

lemma summarize_slide_bounds (sd : ParsedSlide) :
    ∀ s ∈ ContentSummarizer._summarize_slide sd,
      s.bullets.length ≤ ContentSummarizer.MAX_BULLETS_PER_SLIDE ∧
      s.key_metrics.length ≤ 4 ∧
      ∀ td, s.table_data = some td → td.rows.length ≤ ContentSummarizer.MAX_TABLE_ROWS := by
  unfold ContentSummarizer._summarize_slide
  by_cases hskip : (ContentSummarizer.SKIP_SECTIONS.any
      (fun skip => pyIn skip (sd.title.getD []))) = true
  · simp [hskip]
  · rw [if_neg hskip]
    rcases htab : sd.tables with _ | ⟨t0, ts⟩
    · rcases hleg : ContentSummarizer._extract_table_from_content sd.content with _ | td0
      · by_cases hm : ((sd.content.foldl ContentSummarizer.classifyStep ([], [])).2).isEmpty = true
        · by_cases hb :
              ((sd.content.foldl ContentSummarizer.classifyStep ([], [])).1).isEmpty = true
          · simp [htab, hleg, hm, hb, List.isEmpty_iff]
          · intro s hs
            simp [htab, hleg, hm, hb] at hs
            rcases hs with ⟨a, b, hab, hs⟩
            rw [← hs]
            refine ⟨?_, by simp, by simp⟩
            have hmem : b ∈ ContentSummarizer.chunkBullets
                ((sd.content.foldl ContentSummarizer.classifyStep ([], [])).1).length
                ((sd.content.foldl ContentSummarizer.classifyStep ([], [])).1) := by
              have h2 := mem_of_mem_enumFrom _ 0 (a, b) (by simpa [List.enum] using hab)
              simpa using h2
            simpa using chunkBullets_mem_length _ _ _ hmem
        · simp only [htab, hleg, hm, Bool.false_eq_true, if_false]
          by_cases hb :
              ((sd.content.foldl ContentSummarizer.classifyStep ([], [])).1).isEmpty = true <;>
            simp [hb] <;>
            constructor <;>
            simp [ContentSummarizer.MAX_BULLETS_PER_SLIDE] <;>
            first
            | (exact le_trans (by simpa using List.length_take_le _ _) (by decide))
            | decide
      · simp only [htab, hleg, List.isEmpty_nil, Bool.not_true, Bool.false_eq_true, if_false]
        by_cases hb :
            ((sd.content.foldl ContentSummarizer.classifyStep ([], [])).1).isEmpty = true
        · intro s hs
          simp [hb] at hs
          subst hs
          refine ⟨by simp, by simp, fun td h => ?_⟩
          simp at h
          rw [← h]
          exact extract_table_rows_le _ _ hleg
        · intro s hs
          simp [hb] at hs
          rcases hs with hs | hs <;> subst hs
          · refine ⟨by simp, by simp, fun td h => ?_⟩
            simp at h
            rw [← h]
            exact extract_table_rows_le _ _ hleg
          · refine ⟨by simpa using List.length_take_le _ _, by simp, by simp⟩
    · intro s hs
      by_cases hrows : t0.rows.isEmpty = true <;>
        by_cases hb :
          ((sd.content.foldl ContentSummarizer.classifyStep ([], [])).1).isEmpty = true <;>
        simp [htab, hrows, hb] at hs
      · subst hs
        refine ⟨by simp, by simp, fun td h => ?_⟩
        simp at h
        rw [← h]
        simp [List.isEmpty_iff.mp hrows]
      · rcases hs with hs | hs <;> subst hs
        · refine ⟨by simp, by simp, fun td h => ?_⟩
          simp at h
          rw [← h]
          simp [List.isEmpty_iff.mp hrows]
        · exact ⟨by simpa using List.length_take_le _ _, by simp, by simp⟩
      · subst hs
        refine ⟨by simp, by simp, fun td h => ?_⟩
        simp at h
        rw [← h]
        simpa using List.length_take_le _ _
      · rcases hs with hs | hs <;> subst hs
        · refine ⟨by simp, by simp, fun td h => ?_⟩
          simp at h
          rw [← h]
          simpa using List.length_take_le _ _
        · exact ⟨by simpa using List.length_take_le _ _, by simp, by simp⟩

lemma mem_insertByImp (x s : SlideContent) :
    ∀ l : List SlideContent, s ∈ ContentSummarizer.insertByImp x l → s = x ∨ s ∈ l := by
  intro l
  induction l with
  | nil =>
    intro h
    unfold ContentSummarizer.insertByImp at h
    simp at h
    exact Or.inl h
  | cons y ys ih =>
    intro h
    unfold ContentSummarizer.insertByImp at h
    split at h
    · rcases List.mem_cons.mp h with h | h
      · exact Or.inl h
      · exact Or.inr h
    · rcases List.mem_cons.mp h with h | h
      · exact Or.inr (List.mem_cons.mpr (Or.inl h))
      · rcases ih h with h | h
        · exact Or.inl h
        · exact Or.inr (List.mem_cons.mpr (Or.inr h))

lemma mem_sortByImpDesc (s : SlideContent) (l : List SlideContent)
    (h : s ∈ ContentSummarizer.sortByImpDesc l) : s ∈ l := by
  have haux : ∀ (l2 : List SlideContent) (acc : List SlideContent),
      s ∈ l2.foldl (fun acc x => ContentSummarizer.insertByImp x acc) acc →
      s ∈ acc ∨ s ∈ l2 := by
    intro l2
    induction l2 with
    | nil => intro acc h2; exact Or.inl h2
    | cons x xs ih =>
      intro acc h2
      rcases ih _ h2 with h3 | h3
      · rcases mem_insertByImp x s acc h3 with h4 | h4
        · exact Or.inr (by simp [h4])
        · exact Or.inl h4
      · exact Or.inr (List.mem_cons.mpr (Or.inr h3))
  rcases haux l [] h with h2 | h2
  · simp at h2
  · exact h2

lemma prioritize_length (l : List SlideContent) :
    (ContentSummarizer._prioritize_slides l).length ≤ ContentSummarizer.MAX_SLIDES := by
  unfold ContentSummarizer._prioritize_slides
  split
  · assumption
  · simpa using List.length_take_le _ _

lemma prioritize_mem (s : SlideContent) (l : List SlideContent)
    (h : s ∈ ContentSummarizer._prioritize_slides l) : s ∈ l := by
  unfold ContentSummarizer._prioritize_slides at h
  split at h
  · exact h
  · exact mem_sortByImpDesc s l (List.mem_of_mem_take h)

/-- C5: every presentation produced by `summarize` has at most
`MAX_SLIDES` slides, and each slide has at most `MAX_BULLETS_PER_SLIDE`
bullets, at most 4 key metrics, and, when present, table data with at
most `MAX_TABLE_ROWS` rows. -/
theorem summarize_bounds (self : ContentSummarizer) (d : ParsedDoc) :
    (ContentSummarizer.summarize self d).2.slides.length ≤ ContentSummarizer.MAX_SLIDES ∧
    ∀ s ∈ (ContentSummarizer.summarize self d).2.slides,
      s.bullets.length ≤ ContentSummarizer.MAX_BULLETS_PER_SLIDE ∧
      s.key_metrics.length ≤ 4 ∧
      ∀ td, s.table_data = some td → td.rows.length ≤ ContentSummarizer.MAX_TABLE_ROWS := by
  constructor
  · exact prioritize_length _
  · intro s hs
    have hs2 : s ∈ d.slides.flatMap ContentSummarizer._summarize_slide :=
      prioritize_mem s _ hs
    rcases List.mem_flatMap.mp hs2 with ⟨sd, _, hmem⟩
    exact summarize_slide_bounds sd s hmem

theorem summarize_bounds_witness :
    ((ContentSummarizer.summarize {}
        { title := some "T".data,
          slides := [{ title := some "S".data,
                       content := [{ type := "bullet".data, text := "one".data }],
                       images := [], code_blocks := [],
                       tables := [{ headers := ["H".data],
                                    rows := [["1".data], ["2".data], ["3".data], ["4".data],
                                             ["5".data], ["6".data], ["7".data]] }],
                       layout := "table".data }],
          metadata := [] }).2.slides.length ≤ ContentSummarizer.MAX_SLIDES) ∧
    (2 ≤ (ContentSummarizer.summarize {}
        { title := some "T".data,
          slides := [{ title := some "S".data,
                       content := [{ type := "bullet".data, text := "one".data }],
                       images := [], code_blocks := [],
                       tables := [{ headers := ["H".data],
                                    rows := [["1".data], ["2".data], ["3".data], ["4".data],
                                             ["5".data], ["6".data], ["7".data]] }],
                       layout := "table".data }],
          metadata := [] }).2.slides.length) := by
  exact ⟨(summarize_bounds {} _).1, by decide⟩

/-- C4 counterexample: with line cap 0 the function still emits one
physical line (with an ellipsis), exceeding the cap: on `"a bb"` with a
2-character budget and cap 0 it returns `"a..."`, which has one physical
line, not at most zero. -/
theorem limit_text_lines_counterexample :
    PPTDesigner._limit_text_lines "a bb".data 2 0 = "a...".data ∧
    numLines (PPTDesigner._limit_text_lines "a bb".data 2 0) = 1 := by
  exact ⟨by decide, by decide⟩

lemma pyJoin_append_single (sep : PyStr) (w : PyStr) :
    ∀ g : List PyStr, g ≠ [] →
      pyJoin sep (g ++ [w]) = pyJoin sep g ++ sep ++ w := by
  intro g
  induction g with
  | nil => intro h; exact absurd rfl h
  | cons x rest ih =>
    intro _
    cases rest with
    | nil => simp [pyJoin]
    | cons y rest2 =>
      have h2 := ih (by simp)
      show x ++ sep ++ pyJoin sep ((y :: rest2) ++ [w]) =
        (x ++ sep ++ pyJoin sep (y :: rest2)) ++ sep ++ w
      rw [h2]
      simp [List.append_assoc]

lemma join_words_ne_nil (w : PyStr) (rest : List PyStr) (hw : w ≠ []) :
    pyJoin " ".data (w :: rest) ≠ [] := by
  cases rest with
  | nil => simpa [pyJoin]
  | cons y rest2 =>
    simp only [pyJoin]
    intro hcontra
    rcases List.append_eq_nil.mp hcontra with ⟨h1, _⟩
    rcases List.append_eq_nil.mp h1 with ⟨h2, _⟩
    exact hw h2

lemma splitAux_break (b : PyStr) :
    ∀ (a : PyStr) (acc : PyStr),
      pySplitWsAux (a ++ ' ' :: b) acc = pySplitWsAux a acc ++ pySplitWs b := by
  intro a
  induction a with
  | nil =>
    intro acc
    by_cases hacc : acc.isEmpty = true <;>
      simp [pySplitWsAux, pySplitWs, hacc, Char.isWhitespace]
  | cons c a2 ih =>
    intro acc
    by_cases hws : c.isWhitespace = true
    · by_cases hacc : acc.isEmpty = true <;>
        simp [pySplitWsAux, hws, hacc, ih]
    · simp [pySplitWsAux, hws, ih]

lemma splitAux_word :
    ∀ (w : PyStr) (acc : PyStr), (∀ c ∈ w, c.isWhitespace = false) →
      pySplitWsAux w acc =
        (if (acc.reverse ++ w).isEmpty then [] else [acc.reverse ++ w]) := by
  intro w
  induction w with
  | nil =>
    intro acc _
    by_cases hacc : acc.isEmpty = true <;>
      simp [pySplitWsAux, hacc, List.isEmpty_iff] <;>
      simp [List.isEmpty_iff] at hacc <;>
      simp [hacc]
  | cons c w2 ih =>
    intro acc hg
    have hc : c.isWhitespace = false := hg c (by simp)
    have h2 := ih (c :: acc) (fun x hx => hg x (by simp [hx]))
    simp only [pySplitWsAux, hc, Bool.false_eq_true, if_false]
    rw [h2]
    simp

lemma pySplitWs_word (w : PyStr) (hw : goodWord w = true) : pySplitWs w = [w] := by
  unfold goodWord at hw
  rcases Bool.and_eq_true_iff.mp hw with ⟨hne, hall⟩
  unfold pySplitWs
  rw [splitAux_word w [] (fun c hc => by
    have := List.all_eq_true.mp hall c hc
    simpa using this)]
  simp only [List.reverse_nil, List.nil_append]
  rw [if_neg (by simpa using hne)]

lemma pySplitWs_join_space :
    ∀ ls : List PyStr, pySplitWs (pyJoin " ".data ls) = (ls.map pySplitWs).flatten := by
  intro ls
  induction ls with
  | nil => simp [pyJoin, pySplitWs, pySplitWsAux]
  | cons x rest ih =>
    cases rest with
    | nil => simp [pyJoin]
    | cons y rest2 =>
      have hassoc : pyJoin " ".data (x :: y :: rest2) =
          x ++ ' ' :: pyJoin " ".data (y :: rest2) := by
        show (x ++ " ".data) ++ pyJoin " ".data (y :: rest2) = _
        rw [List.append_assoc]
        rfl
      rw [hassoc]
      show pySplitWsAux (x ++ ' ' :: pyJoin " ".data (y :: rest2)) [] = _
      rw [splitAux_break]
      show pySplitWs x ++ pySplitWs (pyJoin " ".data (y :: rest2)) = _
      rw [ih]
      simp

lemma flatten_map_singleton {α : Type} : ∀ l : List α, (l.map (fun w => [w])).flatten = l := by
  intro l
  induction l with
  | nil => rfl
  | cons x rest ih => simp only [List.map_cons, List.flatten_cons, ih, List.singleton_append]

lemma pySplitWs_join_words (g : List PyStr) (hg : ∀ w ∈ g, goodWord w = true) :
    pySplitWs (pyJoin " ".data g) = g := by
  rw [pySplitWs_join_space]
  have h2 : g.map pySplitWs = g.map (fun w => [w]) :=
    List.map_congr_left (fun w hw => pySplitWs_word w (hg w hw))
  rw [h2, flatten_map_singleton]

lemma goodWord_count_nl (w : PyStr) (hw : goodWord w = true) : w.count '\n' = 0 := by
  rcases Bool.and_eq_true_iff.mp hw with ⟨_, hall⟩
  rw [List.count_eq_zero]
  intro hmem
  have h2 := List.all_eq_true.mp hall '\n' hmem
  simp at h2

lemma count_nl_join_words (g : List PyStr) (hg : ∀ w ∈ g, goodWord w = true) :
    (pyJoin " ".data g).count '\n' = 0 := by
  induction g with
  | nil => simp [pyJoin]
  | cons x rest ih =>
    cases rest with
    | nil =>
      show x.count '\n' = 0
      exact goodWord_count_nl x (hg x (by simp))
    | cons y rest2 =>
      show ((x ++ " ".data) ++ pyJoin " ".data (y :: rest2)).count '\n' = 0
      rw [List.count_append, List.count_append]
      have h1 := goodWord_count_nl x (hg x (by simp))
      have h2 := ih (fun w hw => hg w (by simp [List.mem_cons] at hw ⊢; tauto))
      simp [h1, h2]

lemma count_nl_join_lines :
    ∀ ls : List PyStr, (∀ l ∈ ls, l.count '\n' = 0) →
      (pyJoin "\n".data ls).count '\n' = ls.length - 1 := by
  intro ls
  induction ls with
  | nil => simp [pyJoin]
  | cons x rest ih =>
    intro hall
    cases rest with
    | nil =>
      show x.count '\n' = 0
      exact hall x (by simp)
    | cons y rest2 =>
      show ((x ++ "\n".data) ++ pyJoin "\n".data (y :: rest2)).count '\n' = _
      rw [List.count_append, List.count_append]
      rw [hall x (by simp)]
      rw [ih (fun l hl => hall l (by simp [List.mem_cons] at hl ⊢; tauto))]
      simp [List.count_cons]
      omega

lemma getLast?_append_right (l1 l2 : PyStr) (h : l2 ≠ []) :
    (l1 ++ l2).getLast? = l2.getLast? := by
  rw [← List.head?_reverse, ← List.head?_reverse]
  rw [List.reverse_append]
  cases hrev : l2.reverse with
  | nil => exact absurd (by simpa using hrev) h
  | cons c t => simp

lemma getLast?_join_words (g : List PyStr) (w : PyStr)
    (hlast : g.getLast? = some w) (hg : ∀ u ∈ g, goodWord u = true) :
    (pyJoin " ".data g).getLast? = w.getLast? := by
  induction g with
  | nil => simp at hlast
  | cons x rest ih =>
    cases rest with
    | nil =>
      simp at hlast
      subst hlast
      rfl
    | cons y rest2 =>
      have hy : y ≠ [] := by
        have := Bool.and_eq_true_iff.mp (hg y (by simp))
        simpa using this.1
      have hJ : pyJoin " ".data (y :: rest2) ≠ [] := join_words_ne_nil y rest2 hy
      show ((x ++ " ".data) ++ pyJoin " ".data (y :: rest2)).getLast? = _
      rw [getLast?_append_right _ _ hJ]
      exact ih (by simpa using hlast) (fun u hu => hg u (by simp [List.mem_cons] at hu ⊢; tauto))

lemma pyRStrip_of_getLast (s : PyStr) (c : Char)
    (h : s.getLast? = some c) (hc : c.isWhitespace = false) : pyRStrip s = s := by
  unfold pyRStrip
  rw [← List.head?_reverse] at h
  cases hrev : s.reverse with
  | nil =>
    have hs : s = [] := by simpa using hrev
    subst hs
    rfl
  | cons d t =>
    rw [hrev] at h
    simp at h
    subst h
    rw [List.dropWhile_cons_of_neg (by simp [hc])]
    rw [← hrev]
    simp

lemma suffix_dots_getLast (s : PyStr) (h : "...".data <:+ s) : s.getLast? = some '.' := by
  rcases h with ⟨t, ht⟩
  rw [← ht]
  rw [getLast?_append_right t _ (by decide)]
  decide

lemma splitWs_all_good :
    ∀ (s : PyStr) (acc : PyStr), (∀ c ∈ acc, c.isWhitespace = false) →
      ∀ w ∈ pySplitWsAux s acc, goodWord w = true := by
  intro s
  induction s with
  | nil =>
    intro acc hacc w hw
    simp only [pySplitWsAux] at hw
    split at hw
    · simp at hw
    · rename_i hne
      simp at hw
      subst hw
      unfold goodWord
      refine Bool.and_eq_true_iff.mpr ⟨by simpa using hne, ?_⟩
      rw [List.all_eq_true]
      intro c hc
      simpa using hacc c (by simpa using hc)
  | cons c s2 ih =>
    intro acc hacc w hw
    simp only [pySplitWsAux] at hw
    by_cases hws : c.isWhitespace = true
    · rw [if_pos hws] at hw
      split at hw
      · exact ih [] (by simp) w hw
      · rename_i hne
        rcases List.mem_cons.mp hw with hw | hw
        · subst hw
          unfold goodWord
          refine Bool.and_eq_true_iff.mpr ⟨by simpa using hne, ?_⟩
          rw [List.all_eq_true]
          intro d hd
          simpa using hacc d (by simpa using hd)
        · exact ih [] (by simp) w hw
    · rw [if_neg hws] at hw
      refine ih (c :: acc) ?_ w hw
      intro d hd
      rcases List.mem_cons.mp hd with hd | hd
      · subst hd; simpa using hws
      · exact hacc d hd

lemma pySplitWs_good (s : PyStr) : ∀ w ∈ pySplitWs s, goodWord w = true :=
  splitWs_all_good s [] (by simp)

lemma goodWord_ne_nil (w : PyStr) (h : goodWord w = true) : w ≠ [] := by
  rcases Bool.and_eq_true_iff.mp h with ⟨hne, _⟩
  simpa using hne

lemma packWords_spec (chars max : Nat) :
    ∀ (ws : List PyStr) (lines : List PyStr) (cur : PyStr)
      (groups : List (List PyStr)) (cg : List PyStr),
      (∀ w ∈ ws, goodWord w = true) →
      lines = groups.map (pyJoin " ".data) →
      (∀ g ∈ groups, g ≠ [] ∧ ∀ u ∈ g, goodWord u = true) →
      ((cur = [] ∧ cg = []) ∨
        (cg ≠ [] ∧ (∀ u ∈ cg, goodWord u = true) ∧ cur = pyJoin " ".data cg)) →
      lines.length < max →
      ∃ (groups2 : List (List PyStr)) (cg2 : List PyStr) (dropped : List PyStr),
        (PPTDesigner.packWords chars max ws lines cur).1 = groups2.map (pyJoin " ".data) ∧
        (∀ g ∈ groups2, g ≠ [] ∧ ∀ u ∈ g, goodWord u = true) ∧
        (((PPTDesigner.packWords chars max ws lines cur).2 = [] ∧ cg2 = []) ∨
          (cg2 ≠ [] ∧ (∀ u ∈ cg2, goodWord u = true) ∧
           (PPTDesigner.packWords chars max ws lines cur).2 = pyJoin " ".data cg2)) ∧
        groups2.flatten ++ cg2 ++ dropped = groups.flatten ++ cg ++ ws ∧
        (PPTDesigner.packWords chars max ws lines cur).1.length ≤ max ∧
        (dropped ≠ [] → (PPTDesigner.packWords chars max ws lines cur).1.length = max) ∧
        ((PPTDesigner.packWords chars max ws lines cur).2 = [] → dropped = []) := by
  intro ws
  induction ws with
  | nil =>
    intro lines cur groups cg hws hlines hgroups hcur hlen
    refine ⟨groups, cg, [], hlines, hgroups, hcur, by simp, le_of_lt hlen, by simp, fun _ => rfl⟩
  | cons w ws2 ih =>
    intro lines cur groups cg hws hlines hgroups hcur hlen
    have hwgood : goodWord w = true := hws w (by simp)
    have hws2 : ∀ u ∈ ws2, goodWord u = true := fun u hu => hws u (by simp [hu])
    by_cases hfit : cur.length + w.length + 1 ≤ chars
    · simp only [PPTDesigner.packWords, if_pos hfit]
      have hcur2 : ((if cur.isEmpty then w else cur ++ " ".data ++ w) = [] ∧ cg ++ [w] = []) ∨
          ((cg ++ [w]) ≠ [] ∧ (∀ u ∈ cg ++ [w], goodWord u = true) ∧
           (if cur.isEmpty then w else cur ++ " ".data ++ w) = pyJoin " ".data (cg ++ [w])) := by
        right
        refine ⟨by simp, ?_, ?_⟩
        · intro u hu
          rcases List.mem_append.mp hu with hu | hu
          · rcases hcur with ⟨_, hcg⟩ | ⟨_, hgood, _⟩
            · subst hcg; simp at hu
            · exact hgood u hu
          · simp at hu; subst hu; exact hwgood
        · rcases hcur with ⟨hc, hcg⟩ | ⟨hne, hgood, hj⟩
          · subst hc; subst hcg; simp [pyJoin]
          · have hcne : cur ≠ [] := by
              rw [hj]
              rcases cg with _ | ⟨c0, cgt⟩
              · exact absurd rfl hne
              · exact join_words_ne_nil c0 cgt (goodWord_ne_nil c0 (hgood c0 (by simp)))
            rw [if_neg (by simpa using hcne), hj, pyJoin_append_single _ _ _ hne]
      obtain ⟨g2, c2, dr, h1, h2, h3, h4, h5, h6, h7⟩ :=
        ih lines (if cur.isEmpty then w else cur ++ " ".data ++ w) groups (cg ++ [w])
          hws2 hlines hgroups hcur2 hlen
      refine ⟨g2, c2, dr, h1, h2, h3, ?_, h5, h6, h7⟩
      rw [h4]
      simp
    · simp only [PPTDesigner.packWords, if_neg hfit]
      by_cases hcure : cur.isEmpty = true
      · have hcg : cg = [] := by
          rcases hcur with ⟨_, hcg⟩ | ⟨hne, hgood, hj⟩
          · exact hcg
          · exfalso
            rcases cg with _ | ⟨c0, cgt⟩
            · exact hne rfl
            · exact join_words_ne_nil c0 cgt (goodWord_ne_nil c0 (hgood c0 (by simp)))
                (by rw [← hj]; exact List.isEmpty_iff.mp hcure)
        simp only [hcure, if_true]
        have hnb : ¬ lines.length ≥ max := by omega
        simp only [hnb, if_false]
        have hcurw : (w = [] ∧ [w] = []) ∨
            (([w] : List PyStr) ≠ [] ∧ (∀ u ∈ [w], goodWord u = true) ∧
             w = pyJoin " ".data [w]) := by
          right
          exact ⟨by simp, by simpa using hwgood, rfl⟩
        obtain ⟨g2, c2, dr, h1, h2, h3, h4, h5, h6, h7⟩ :=
          ih lines w groups [w] hws2 hlines hgroups hcurw hlen
        refine ⟨g2, c2, dr, h1, h2, h3, ?_, h5, h6, h7⟩
        rw [h4, hcg]
        simp
      · rcases hcur with ⟨hc, _⟩ | ⟨hcgne, hcgood, hj⟩
        · exact absurd (by simp [hc]) hcure
        simp only [hcure, Bool.false_eq_true, if_false]
        have hlines2 : lines ++ [cur] = (groups ++ [cg]).map (pyJoin " ".data) := by
          rw [List.map_append, ← hlines, hj]
          rfl
        have hgroups2 : ∀ g ∈ groups ++ [cg], g ≠ [] ∧ ∀ u ∈ g, goodWord u = true := by
          intro g hg
          rcases List.mem_append.mp hg with hg | hg
          · exact hgroups g hg
          · simp at hg; subst hg; exact ⟨hcgne, hcgood⟩
        by_cases hbreak : (lines ++ [cur]).length ≥ max
        · simp only [hbreak, if_true]
          refine ⟨groups ++ [cg], [w], ws2, hlines2, hgroups2, ?_, ?_, ?_, ?_, ?_⟩
          · right
            exact ⟨by simp, by simpa using hwgood, rfl⟩
          · simp
          · simp at hbreak ⊢
            omega
          · intro _
            simp at hbreak ⊢
            omega
          · intro hw2
            exact absurd hw2 (goodWord_ne_nil w hwgood)
        · simp only [hbreak, if_false]
          have hlen2 : (lines ++ [cur]).length < max := by omega
          have hcurw : (w = [] ∧ [w] = []) ∨
              (([w] : List PyStr) ≠ [] ∧ (∀ u ∈ [w], goodWord u = true) ∧
               w = pyJoin " ".data [w]) := by
            right
            exact ⟨by simp, by simpa using hwgood, rfl⟩
          obtain ⟨g2, c2, dr, h1, h2, h3, h4, h5, h6, h7⟩ :=
            ih (lines ++ [cur]) w (groups ++ [cg]) [w] hws2 hlines2 hgroups2 hcurw hlen2
          refine ⟨g2, c2, dr, h1, h2, h3, ?_, h5, h6, h7⟩
          rw [h4]
          simp

lemma pyJoin_ne_nil (sep : PyStr) (w : PyStr) (rest : List PyStr) (hw : w ≠ []) :
    pyJoin sep (w :: rest) ≠ [] := by
  cases rest with
  | nil => simpa [pyJoin]
  | cons y rest2 =>
    simp only [pyJoin]
    intro hcontra
    rcases List.append_eq_nil.mp hcontra with ⟨h1, _⟩
    rcases List.append_eq_nil.mp h1 with ⟨h2, _⟩
    exact hw h2

lemma getLast?_pyJoin (sep : PyStr) :
    ∀ (ls : List PyStr) (l : PyStr), ls.getLast? = some l → (∀ x ∈ ls, x ≠ []) →
      (pyJoin sep ls).getLast? = l.getLast? := by
  intro ls
  induction ls with
  | nil => intro l h; simp at h
  | cons x rest ih =>
    intro l hlast hne
    cases rest with
    | nil =>
      simp at hlast
      subst hlast
      rfl
    | cons y rest2 =>
      have hy : y ≠ [] := hne y (by simp)
      have hJ : pyJoin sep (y :: rest2) ≠ [] := pyJoin_ne_nil sep y rest2 hy
      show ((x ++ sep) ++ pyJoin sep (y :: rest2)).getLast? = _
      rw [getLast?_append_right _ _ hJ]
      exact ih l (by simpa using hlast) (fun u hu => hne u (by simp [List.mem_cons] at hu ⊢; tauto))

lemma group_join_ne_nil (g : List PyStr) (hne : g ≠ [])
    (hg : ∀ u ∈ g, goodWord u = true) : pyJoin " ".data g ≠ [] := by
  cases g with
  | nil => exact absurd rfl hne
  | cons g0 gt => exact pyJoin_ne_nil _ g0 gt (goodWord_ne_nil g0 (hg g0 (by simp)))

lemma linesOf_split (gs : List (List PyStr))
    (hg : ∀ g ∈ gs, g ≠ [] ∧ ∀ u ∈ g, goodWord u = true) :
    pySplitWs (pyJoin " ".data (gs.map (pyJoin " ".data))) = gs.flatten := by
  rw [pySplitWs_join_space, List.map_map]
  have h2 : gs.map (pySplitWs ∘ pyJoin " ".data) = gs.map id := by
    refine List.map_congr_left (fun g hgm => ?_)
    show pySplitWs (pyJoin " ".data g) = g
    exact pySplitWs_join_words g (hg g hgm).2
  rw [h2]
  simp

lemma numLines_join (ls : List PyStr) (hnl : ∀ l ∈ ls, l.count '\n' = 0)
    (hne : ∀ l ∈ ls, l ≠ []) : numLines (pyJoin "\n".data ls) = ls.length := by
  cases ls with
  | nil => rfl
  | cons l0 rest =>
    have hjoin : pyJoin "\n".data (l0 :: rest) ≠ [] :=
      pyJoin_ne_nil _ l0 rest (hne l0 (by simp))
    unfold numLines
    rw [if_neg (by simpa using hjoin)]
    rw [count_nl_join_lines (l0 :: rest) hnl]
    simp

lemma lines_last_word (gs : List (List PyStr)) (g0 : List PyStr) (gt : List (List PyStr))
    (hgs : gs = g0 :: gt)
    (hg : ∀ g ∈ gs, g ≠ [] ∧ ∀ u ∈ g, goodWord u = true) :
    ∃ w, w ∈ gs.flatten ∧ goodWord w = true ∧
      (pyJoin "\n".data (gs.map (pyJoin " ".data))).getLast? = w.getLast? := by
  have hnonempty : gs ≠ [] := by rw [hgs]; simp
  cases hglast : gs.getLast? with
  | none => exact absurd (List.getLast?_eq_none_iff.mp hglast) hnonempty
  | some glast =>
    have hglastmem : glast ∈ gs := List.mem_of_getLast?_eq_some hglast
    obtain ⟨hgne, hggood⟩ := hg glast hglastmem
    cases hwlast : glast.getLast? with
    | none => exact absurd (List.getLast?_eq_none_iff.mp hwlast) hgne
    | some wlast =>
      have hwmem : wlast ∈ glast := List.mem_of_getLast?_eq_some hwlast
      refine ⟨wlast, List.mem_flatten_of_mem hglastmem hwmem, hggood wlast hwmem, ?_⟩
      have hmaplast : (gs.map (pyJoin " ".data)).getLast? = some (pyJoin " ".data glast) := by
        rw [List.getLast?_map, hglast]
        rfl
      rw [getLast?_pyJoin "\n".data (gs.map (pyJoin " ".data)) (pyJoin " ".data glast) hmaplast
        (by
          intro x hx
          rcases List.mem_map.mp hx with ⟨g, hgm, hgx⟩
          rw [← hgx]
          exact group_join_ne_nil g (hg g hgm).1 (hg g hgm).2)]
      exact getLast?_join_words glast wlast hwlast hggood

/-- C4 amended: provided the line cap is at least 1 and no word of the
input ends in a period, `_limit_text_lines` returns at most the cap's
number of physical newline-separated lines, and the result ends in an
ellipsis exactly when not all words of the input were packed into the
returned lines; a final partial line that would exceed the cap is
dropped.  (With cap 0 the bound fails, and an input word that itself
ends in dots can make the result end in an ellipsis with all words
packed, so both restrictions are necessary.) -/
theorem limit_text_lines_amended (text : PyStr) (chars_per_line max_lines : Nat)
    (hmax : 1 ≤ max_lines)
    (hdot : ∀ w ∈ pySplitWs text, w.getLast? ≠ some '.') :
    numLines (PPTDesigner._limit_text_lines text chars_per_line max_lines) ≤ max_lines ∧
    ("...".data.isSuffixOf (PPTDesigner._limit_text_lines text chars_per_line max_lines) = true ↔
      (pySplitWs (pyJoin " ".data (PPTDesigner.finalLines text chars_per_line max_lines))).length <
        (pySplitWs text).length) := by
  by_cases htext : text.isEmpty = true
  · have ht : text = [] := by
      cases text with
      | nil => rfl
      | cons c cs => simp at htext
    subst ht
    have hr0 : PPTDesigner._limit_text_lines [] chars_per_line max_lines = [] := rfl
    rw [hr0]
    constructor
    · simp [numLines]
    · constructor
      · intro h
        exact absurd h (by decide)
      · intro h
        simp [PPTDesigner.finalLines, PPTDesigner.packWords, pySplitWs, pySplitWsAux,
          pyJoin] at h
  · obtain ⟨g2, c2, dr, h1, h2, h3, h4, h5, h6, h7⟩ :=
      packWords_spec chars_per_line max_lines (pySplitWs text) [] [] [] []
        (pySplitWs_good text) (by simp) (by simp) (Or.inl ⟨rfl, rfl⟩)
        (by simp only [List.length_nil]; omega)
    simp only [List.flatten_nil, List.nil_append] at h4
    have hres : PPTDesigner._limit_text_lines text chars_per_line max_lines =
        (if ((PPTDesigner.finalLines text chars_per_line max_lines).length ≥ max_lines &&
            (pySplitWs (pyJoin " ".data
              (PPTDesigner.finalLines text chars_per_line max_lines))).length <
              (pySplitWs text).length) = true
         then pyRStrip (pyJoin "\n".data
            (PPTDesigner.finalLines text chars_per_line max_lines)) ++ "...".data
         else pyJoin "\n".data (PPTDesigner.finalLines text chars_per_line max_lines)) := by
      unfold PPTDesigner._limit_text_lines
      rw [if_neg htext]
    rcases h3 with ⟨hc2e, hc2nil⟩ | ⟨hc2ne, hc2good, hc2j⟩
    · -- loop ended with an empty pending line: everything was packed
      have hdr : dr = [] := h7 hc2e
      have hflat : g2.flatten = pySplitWs text := by
        have h4b := h4
        rw [hc2nil, hdr] at h4b
        simpa using h4b
      have hfl : PPTDesigner.finalLines text chars_per_line max_lines =
          (PPTDesigner.packWords chars_per_line max_lines (pySplitWs text) [] []).1 := by
        unfold PPTDesigner.finalLines
        simp [hc2e]
      have hsplitL : pySplitWs (pyJoin " ".data
          (PPTDesigner.finalLines text chars_per_line max_lines)) = g2.flatten := by
        rw [hfl, h1]
        exact linesOf_split g2 h2
      have hcond : ((PPTDesigner.finalLines text chars_per_line max_lines).length ≥ max_lines &&
          (pySplitWs (pyJoin " ".data
            (PPTDesigner.finalLines text chars_per_line max_lines))).length <
            (pySplitWs text).length) = false := by
        rw [hsplitL, hflat]
        simp
      rw [hres, hcond]
      simp only [Bool.false_eq_true, if_false]
      constructor
      · rw [hfl, h1]
        rw [numLines_join (g2.map (pyJoin " ".data))
          (by
            intro l hl
            rcases List.mem_map.mp hl with ⟨g, hgm, hgl⟩
            rw [← hgl]
            exact count_nl_join_words g (h2 g hgm).2)
          (by
            intro l hl
            rcases List.mem_map.mp hl with ⟨g, hgm, hgl⟩
            rw [← hgl]
            exact group_join_ne_nil g (h2 g hgm).1 (h2 g hgm).2)]
        rw [List.length_map]
        have := h5
        rw [h1, List.length_map] at this
        exact this
      · rw [hsplitL, hflat]
        simp only [lt_self_iff_false, iff_false]
        intro hsuf
        rcases hg2 : g2 with _ | ⟨g0, gt⟩
        · rw [hfl, h1, hg2] at hsuf
          exact absurd hsuf (by decide)
        · obtain ⟨w, hwmem, hwgood, hlastw⟩ := lines_last_word g2 g0 gt hg2 h2
          have hsuf2 : "...".data <:+ pyJoin "\n".data (g2.map (pyJoin " ".data)) := by
            rw [hfl, h1] at hsuf
            exact List.isSuffixOf_iff_suffix.mp hsuf
          have hdotlast := suffix_dots_getLast _ hsuf2
          rw [hlastw] at hdotlast
          exact hdot w (hflat ▸ hwmem) hdotlast
    · -- loop ended with a nonempty pending line
      have hpkne : (PPTDesigner.packWords chars_per_line max_lines (pySplitWs text) [] []).2 ≠
          [] := by
        rw [hc2j]
        rcases c2 with _ | ⟨c0, ct⟩
        · exact absurd rfl hc2ne
        · exact join_words_ne_nil c0 ct (goodWord_ne_nil c0 (hc2good c0 (by simp)))
      have hpkE : (PPTDesigner.packWords chars_per_line max_lines
          (pySplitWs text) [] []).2.isEmpty = false := by
        cases hE : (PPTDesigner.packWords chars_per_line max_lines
            (pySplitWs text) [] []).2.isEmpty with
        | false => rfl
        | true => exact absurd (List.isEmpty_iff.mp hE) hpkne
      by_cases hlt : (PPTDesigner.packWords chars_per_line max_lines
          (pySplitWs text) [] []).1.length < max_lines
      · -- pending line appended: everything was packed, no ellipsis
        have hdr : dr = [] := by
          by_contra hcon
          have h6b := h6 hcon
          omega
        have hfl : PPTDesigner.finalLines text chars_per_line max_lines =
            (PPTDesigner.packWords chars_per_line max_lines (pySplitWs text) [] []).1 ++
            [(PPTDesigner.packWords chars_per_line max_lines (pySplitWs text) [] []).2] := by
          unfold PPTDesigner.finalLines
          simp [hpkE, hlt]
        have hlines2 : PPTDesigner.finalLines text chars_per_line max_lines =
            (g2 ++ [c2]).map (pyJoin " ".data) := by
          rw [hfl, h1, hc2j, List.map_append]
          rfl
        have hg2' : ∀ g ∈ g2 ++ [c2], g ≠ [] ∧ ∀ u ∈ g, goodWord u = true := by
          intro g hg
          rcases List.mem_append.mp hg with hg | hg
          · exact h2 g hg
          · simp at hg; subst hg; exact ⟨hc2ne, hc2good⟩
        have hflat : (g2 ++ [c2]).flatten = pySplitWs text := by
          have h4b := h4
          rw [hdr] at h4b
          simpa using h4b
        have hsplitL : pySplitWs (pyJoin " ".data
            (PPTDesigner.finalLines text chars_per_line max_lines)) = (g2 ++ [c2]).flatten := by
          rw [hlines2]
          exact linesOf_split _ hg2'
        have hcond : ((PPTDesigner.finalLines text chars_per_line max_lines).length ≥ max_lines &&
            (pySplitWs (pyJoin " ".data
              (PPTDesigner.finalLines text chars_per_line max_lines))).length <
              (pySplitWs text).length) = false := by
          rw [hsplitL, hflat]
          simp
        rw [hres, hcond]
        simp only [Bool.false_eq_true, if_false]
        constructor
        · rw [hlines2]
          rw [numLines_join ((g2 ++ [c2]).map (pyJoin " ".data))
            (by
              intro l hl
              rcases List.mem_map.mp hl with ⟨g, hgm, hgl⟩
              rw [← hgl]
              exact count_nl_join_words g (hg2' g hgm).2)
            (by
              intro l hl
              rcases List.mem_map.mp hl with ⟨g, hgm, hgl⟩
              rw [← hgl]
              exact group_join_ne_nil g (hg2' g hgm).1 (hg2' g hgm).2)]
          rw [List.length_map]
          have hlen1 := hlt
          rw [h1, List.length_map] at hlen1
          simp
          omega
        · rw [hsplitL, hflat]
          simp only [lt_self_iff_false, iff_false]
          intro hsuf
          rcases hgsplit : g2 ++ [c2] with _ | ⟨g0, gt⟩
          · simp at hgsplit
          · obtain ⟨w, hwmem, hwgood, hlastw⟩ := lines_last_word (g2 ++ [c2]) g0 gt hgsplit hg2'
            have hsuf2 : "...".data <:+ pyJoin "\n".data ((g2 ++ [c2]).map (pyJoin " ".data)) := by
              rw [hlines2] at hsuf
              exact List.isSuffixOf_iff_suffix.mp hsuf
            have hdotlast := suffix_dots_getLast _ hsuf2
            rw [hlastw] at hdotlast
            exact hdot w (hflat ▸ hwmem) hdotlast
      · -- pending line dropped at the cap: ellipsis appended
        have hlenmax : (PPTDesigner.packWords chars_per_line max_lines
            (pySplitWs text) [] []).1.length = max_lines := by omega
        have hfl : PPTDesigner.finalLines text chars_per_line max_lines =
            (PPTDesigner.packWords chars_per_line max_lines (pySplitWs text) [] []).1 := by
          unfold PPTDesigner.finalLines
          simp [hlt]
        have hsplitL : pySplitWs (pyJoin " ".data
            (PPTDesigner.finalLines text chars_per_line max_lines)) = g2.flatten := by
          rw [hfl, h1]
          exact linesOf_split g2 h2
        have hcount : (pySplitWs text).length =
            g2.flatten.length + c2.length + dr.length := by
          have h4b := congrArg List.length h4
          simp only [List.length_append] at h4b
          omega
        have hc2pos : 0 < c2.length := by
          rcases c2 with _ | ⟨c0, ct⟩
          · exact absurd rfl hc2ne
          · simp
        have hpacked : (pySplitWs (pyJoin " ".data
            (PPTDesigner.finalLines text chars_per_line max_lines))).length <
            (pySplitWs text).length := by
          rw [hsplitL, hcount]
          omega
        have hcond : ((PPTDesigner.finalLines text chars_per_line max_lines).length ≥ max_lines &&
            (pySplitWs (pyJoin " ".data
              (PPTDesigner.finalLines text chars_per_line max_lines))).length <
              (pySplitWs text).length) = true := by
          rw [Bool.and_eq_true_iff]
          constructor
          · rw [hfl]
            simp [hlenmax]
          · simpa using hpacked
        rw [hres, hcond]
        simp only [if_true]
        have hg2ne : g2 ≠ [] := by
          intro hcon
          rw [hcon] at h1
          have : (PPTDesigner.packWords chars_per_line max_lines
              (pySplitWs text) [] []).1.length = 0 := by simp [h1]
          omega
        rcases hg2 : g2 with _ | ⟨g0, gt⟩
        · exact absurd hg2 hg2ne
        obtain ⟨w, hwmem, hwgood, hlastw⟩ := lines_last_word g2 g0 gt hg2 h2
        have hrstrip : pyRStrip (pyJoin "\n".data
            (PPTDesigner.finalLines text chars_per_line max_lines)) =
            pyJoin "\n".data (PPTDesigner.finalLines text chars_per_line max_lines) := by
          cases hwl : w.getLast? with
          | none => exact absurd (List.getLast?_eq_none_iff.mp hwl) (goodWord_ne_nil w hwgood)
          | some c =>
            have hcmem : c ∈ w := List.mem_of_getLast?_eq_some hwl
            have hcws : c.isWhitespace = false := by
              rcases Bool.and_eq_true_iff.mp hwgood with ⟨_, hall⟩
              simpa using List.all_eq_true.mp hall c hcmem
            refine pyRStrip_of_getLast _ c ?_ hcws
            rw [hfl, h1]
            rw [hlastw, hwl]
        constructor
        · have hnl : ∀ l ∈ (PPTDesigner.finalLines text chars_per_line max_lines),
              l.count '\n' = 0 := by
            intro l hl
            rw [hfl, h1] at hl
            rcases List.mem_map.mp hl with ⟨g, hgm, hgl⟩
            rw [← hgl]
            exact count_nl_join_words g (h2 g hgm).2
          have hcountnl : (pyJoin "\n".data
              (PPTDesigner.finalLines text chars_per_line max_lines)).count '\n' =
              (PPTDesigner.finalLines text chars_per_line max_lines).length - 1 :=
            count_nl_join_lines _ hnl
          rw [hrstrip]
          unfold numLines
          rw [if_neg (by simp [List.isEmpty_iff])]
          rw [List.count_append, hcountnl]
          have hdots : ("...".data : PyStr).count '\n' = 0 := by decide
          rw [hdots]
          rw [hfl, hlenmax]
          omega
        · constructor
          · intro _
            exact hpacked
          · intro _
            rw [List.isSuffixOf_iff_suffix]
            exact List.suffix_append _ _

theorem limit_text_lines_amended_witness :
    numLines (PPTDesigner._limit_text_lines "aaa bbb ccc ddd eee".data 7 2) ≤ 2 ∧
    ("...".data.isSuffixOf
        (PPTDesigner._limit_text_lines "aaa bbb ccc ddd eee".data 7 2) = true ↔
      (pySplitWs (pyJoin " ".data
        (PPTDesigner.finalLines "aaa bbb ccc ddd eee".data 7 2))).length <
        (pySplitWs "aaa bbb ccc ddd eee".data).length) :=
  limit_text_lines_amended "aaa bbb ccc ddd eee".data 7 2 (by omega) (by decide)
